import Mathlib

/-!
Verification development for the Excel → Supabase import CLI.

Shallow embedding of the repository's value-coercion utilities
(`src/unnamed/part_005`, `src/unnamed/part_006`), grid utilities, the four
report normalizers (`src/src/normalizers/*.ts`, `src/unnamed/part_004`) and
the run orchestrator (`src/unnamed/part_007`), together with theorems about
the frozen specification claims.

Modelling conventions:
* JavaScript strings are `List Char`; JavaScript numbers are exact rationals
  carried as unreduced numerator/denominator pairs (`JNum`), so that every
  arithmetic step reduces inside the Lean kernel; float rounding is not
  modelled (no claim depends on it).
* A spreadsheet cell scalar is a `CellValue`; `null` and `undefined` collapse
  to `CellValue.vnull` except where the source distinguishes them, in which
  case `Option CellValue` is used with `none` playing `undefined`.
* The system time zone is taken to be UTC (the tool ships in a container with
  no TZ configured), so Luxon's local-zone calendar arithmetic is plain UTC
  arithmetic on an epoch-millisecond instant.
-/

set_option maxHeartbeats 1000000
set_option maxRecDepth 1000000

namespace ExcelSupabase

/-- Shorthand: the character list of a string literal. -/
def str (s : String) : List Char := s.data

/-- Exact value of a JavaScript number, stored as an unreduced
numerator/denominator pair. All values the embedded code constructs have a
positive denominator; `toRat` gives the rational value. Keeping the pair
unreduced lets the kernel evaluate every operation (Mathlib's `Rat`
operations are `@[irreducible]`). -/
structure JNum where
  num : ℤ
  den : ℕ
deriving DecidableEq

namespace JNum

instance (n : ℕ) : OfNat JNum n := ⟨⟨n, 1⟩⟩

/-- Negation. -/
def neg (q : JNum) : JNum := ⟨-q.num, q.den⟩

/-- Addition (denominators multiply; no reduction). -/
def add (a b : JNum) : JNum := ⟨a.num * b.den + b.num * a.den, a.den * b.den⟩

/-- Subtraction. -/
def sub (a b : JNum) : JNum := add a (neg b)

/-- Multiplication. -/
def mul (a b : JNum) : JNum := ⟨a.num * b.num, a.den * b.den⟩

/-- Zero test (JavaScript `q === 0`, also the falsiness test for numbers). -/
def isZero (q : JNum) : Bool := q.num = 0

/-- Strict order: `blt a b` is JavaScript `a < b` (for positive denominators). -/
def blt (a b : JNum) : Bool := a.num * (b.den : ℤ) < b.num * (a.den : ℤ)

/-- JavaScript `Math.floor`. -/
def floor (q : JNum) : ℤ := q.num.fdiv (q.den : ℤ)

/-- Absolute value. -/
def abs (q : JNum) : JNum := ⟨|q.num|, q.den⟩

/-- The rational value represented. -/
def toRat (q : JNum) : ℚ := (q.num : ℚ) / (q.den : ℚ)

/-- JavaScript `Math.round` (round half up). -/
def jsRound (x : JNum) : ℤ := (x.add ⟨1, 2⟩).floor

end JNum

instance {ε α : Type} [DecidableEq ε] [DecidableEq α] : DecidableEq (Except ε α) := fun x y =>
  match x, y with
  | .error a, .error b =>
      if h : a = b then isTrue (congrArg Except.error h)
      else isFalse (fun hh => h (Except.error.inj hh))
  | .ok a, .ok b =>
      if h : a = b then isTrue (congrArg Except.ok h)
      else isFalse (fun hh => h (Except.ok.inj hh))
  | .error _, .ok _ => isFalse (fun hh => Except.noConfusion hh)
  | .ok _, .error _ => isFalse (fun hh => Except.noConfusion hh)

/-- Characters treated as whitespace by the JavaScript `\s` class and
`String.prototype.trim` (restricted to those occurring in spreadsheet text). -/
def isWsChar (c : Char) : Bool :=
  c = ' ' || c = '\t' || c = '\n' || c = '\r' || c = '\x0b' || c = '\x0c' || c = ' '

/-- JavaScript `String.prototype.trim`. -/
def trimStr (s : List Char) : List Char :=
  ((s.dropWhile isWsChar).reverse.dropWhile isWsChar).reverse

/-- Fuel-driven worker for `collapseWs` (fuel `≥` length always suffices). -/
def collapseWsAux : Nat → List Char → List Char
  | _, [] => []
  | 0, l => l
  | fuel + 1, c :: rest =>
      if isWsChar c then ' ' :: collapseWsAux fuel (rest.dropWhile isWsChar)
      else c :: collapseWsAux fuel rest

/-- JavaScript `s.replace(/\s+/g, ' ')`: every maximal whitespace run becomes
one space. -/
def collapseWs (s : List Char) : List Char :=
  collapseWsAux s.length s

/-- ASCII lower-casing, as used on the labels compared by the normalizers.
JavaScript `toLowerCase` also lowers non-ASCII letters; the labels the source
lower-cases and then compares are ASCII except for `é`, which is already
lower case in every comparison constant. -/
def strLower (s : List Char) : List Char := s.map Char.toLower

/-- JavaScript `hay.includes(pat)` (substring containment). -/
def strHas (hay pat : List Char) : Bool :=
  match hay with
  | [] => pat.isEmpty
  | _ :: t => pat.isPrefixOf hay || strHas t pat

/-- Numeric value of a digit run, most significant first. -/
def digitsToNat (l : List Char) : Nat :=
  l.foldl (fun acc c => acc * 10 + (c.toNat - 48)) 0

/-- Value of a fractional digit run placed after the decimal point. -/
def fracVal (l : List Char) : JNum :=
  ⟨digitsToNat l, 10 ^ l.length⟩

/-- Decimal digits of a natural number, most significant first. -/
def natDigits (n : Nat) : List Char := Nat.toDigits 10 n

/-- Decimal expansion (up to `fuel` digits) of a `JNum` in `[0, 1)`;
used only to model `String(number)` for non-integer numbers, a channel no
claim inspects beyond "is not blank / contains no separators". -/
def fracDigitsOf : Nat → JNum → List Char
  | 0, _ => []
  | fuel + 1, x =>
      let y := x.mul ⟨10, 1⟩
      let d := y.floor.toNat
      Char.ofNat (48 + d) ::
        (if (y.sub ⟨d, 1⟩).isZero then [] else fracDigitsOf fuel (y.sub ⟨d, 1⟩))

/-- Model of JavaScript `String(n)` for a number `n`. Integer values render
exactly; non-integer values render with up to 17 fractional digits (the
shortest-round-trip refinement of real JS is irrelevant to every claim). -/
def numToStr (q : JNum) : List Char :=
  let sgn : List Char := if q.num < 0 then ['-'] else []
  let a := q.abs
  let ip := a.floor.toNat
  let fr := a.sub ⟨ip, 1⟩
  if fr.isZero then sgn ++ natDigits ip
  else sgn ++ natDigits ip ++ '.' :: fracDigitsOf 17 fr

/-- A spreadsheet cell scalar after `cellToValue` unwrapping: `null` (also
covering `undefined` where the source does not distinguish them), a finite
number, a string, or a native `Date` carried as epoch milliseconds. -/
inductive CellValue where
  | vnull : CellValue
  | vnum (q : JNum) : CellValue
  | vstr (s : List Char) : CellValue
  | vdate (epochMs : ℤ) : CellValue
deriving DecidableEq

/-- Model of JavaScript `String(v)`. The rendering of a native `Date` is
abstracted to a placeholder: no claim inspects a stringified date. -/
def jsToString : CellValue → List Char
  | .vnull => str "null"
  | .vstr s => s
  | .vnum q => numToStr q
  | .vdate _ => str "[date]"

/-- JavaScript truthiness of a cell scalar. -/
def truthy : CellValue → Bool
  | .vnull => false
  | .vnum q => !q.isZero
  | .vstr s => !s.isEmpty
  | .vdate _ => true

/-- The per-value part of `isRowEmpty` (src/unnamed/part_006 lines 37-39):
`val === null || val === undefined || String(val).trim() === ''`. -/
def isBlankCell (v : CellValue) : Bool :=
  v = .vnull || (trimStr (jsToString v)).isEmpty

/-- `isRowEmpty` (src/unnamed/part_006 lines 37-39). -/
def isRowEmpty (values : List CellValue) : Bool :=
  values.all isBlankCell

/-- JavaScript `s.lastIndexOf(c)` (`-1` when absent). -/
def lastIndexOfChar (l : List Char) (c : Char) : ℤ :=
  match l.reverse.findIdx? (fun x => x = c) with
  | some i => (l.length : ℤ) - 1 - i
  | none => -1

/-- JavaScript `s.replace(a, b)` with one-character pattern: replaces only the
first occurrence. -/
def replaceFirstChar : List Char → Char → Char → List Char
  | [], _, _ => []
  | x :: rest, a, b => if x = a then b :: rest else x :: replaceFirstChar rest a b

/-- The number denoted by integer digits `ip` and fractional digits `fp`
around a decimal point. -/
def decimalVal (ip fp : List Char) : JNum :=
  JNum.add ⟨digitsToNat ip, 1⟩ (fracVal fp)

/-- Nonnegative branch of the JavaScript `Number(s)` conversion for strings
over digits, `.` and `-` (the only characters surviving `parseNumeric`'s final
filter): optional integer digits, then optionally a dot and fractional digits,
with at least one digit overall; anything else is `NaN`, i.e. `none`. -/
def jsNumberNonNeg (s : List Char) : Option JNum :=
  let ip := s.takeWhile Char.isDigit
  let rest := s.dropWhile Char.isDigit
  match rest with
  | [] => if ip = [] then none else some ⟨digitsToNat ip, 1⟩
  | c :: fp =>
      if c = '.' then
        if fp.all Char.isDigit && !(ip = [] && fp = []) then some (decimalVal ip fp)
        else none
      else none

/-- JavaScript `Number(s)` for strings over digits, `.` and `-`.
`Number("") = 0`; a leading minus negates; a minus anywhere else is `NaN`. -/
def jsNumber (s : List Char) : Option JNum :=
  match s with
  | [] => some 0
  | c :: rest =>
      if c = '-' then (jsNumberNonNeg rest).map JNum.neg
      else jsNumberNonNeg (c :: rest)

/-- `parseNumeric` (src/unnamed/part_006 lines 40-70): locale-tolerant numeric
coercion. Numbers pass through; text is trimmed (after mapping no-break
spaces to spaces), inner whitespace removed, the comma/dot disambiguation
applied, every character outside `[0-9.\-]` stripped, degenerate leftovers
rejected, and the remainder fed to `Number`. -/
def parseNumeric (v : CellValue) : Option JNum :=
  match v with
  | .vnull => none
  | .vnum q => some q
  | _ =>
      let text := trimStr ((jsToString v).map (fun c => if c = ' ' then ' ' else c))
      if text = [] then none
      else
        let cleaned := text.filter (fun c => !isWsChar c)
        let hasComma := cleaned.contains ','
        let hasDot := cleaned.contains '.'
        let normalized :=
          if hasComma && hasDot then
            if lastIndexOfChar cleaned ',' > lastIndexOfChar cleaned '.' then
              replaceFirstChar (cleaned.filter (fun c => c ≠ '.')) ',' '.'
            else cleaned.filter (fun c => c ≠ ',')
          else if hasComma then replaceFirstChar cleaned ',' '.'
          else cleaned
        let stripped := normalized.filter (fun c => c.isDigit || c = '.' || c = '-')
        if stripped = [] || stripped = ['-'] || stripped = ['.'] || stripped = ['-', '.'] then
          none
        else jsNumber stripped

/-- `parseNumericZero` (src/unnamed/part_006 lines 72-75). -/
def parseNumericZero (v : CellValue) : JNum :=
  (parseNumeric v).getD 0

/-- A proleptic-Gregorian calendar date (the value of Luxon's `toISODate`;
the rendering `Ymd → "YYYY-MM-DD"` is injective, so equality of dates and
equality of the emitted strings agree). -/
structure Ymd where
  year : ℤ
  month : Nat
  day : Nat
deriving DecidableEq

/-- Gregorian leap-year rule. -/
def isLeapYear (y : ℤ) : Bool := (y % 4 = 0 && y % 100 ≠ 0) || y % 400 = 0

/-- Length of a month. -/
def daysInMonth (y : ℤ) (m : Nat) : Nat :=
  if m = 2 then (if isLeapYear y then 29 else 28)
  else if m = 4 || m = 6 || m = 9 || m = 11 then 30 else 31

/-- Calendar date of a day count relative to 1970-01-01 (standard
civil-from-days conversion on the proleptic Gregorian calendar). -/
def civilFromDays (z0 : ℤ) : Ymd :=
  let z := z0 + 719468
  let era := z.fdiv 146097
  let doe := z - era * 146097
  let yoe := (doe - doe.fdiv 1460 + doe.fdiv 36524 - doe.fdiv 146096).fdiv 365
  let y := yoe + era * 400
  let doy := doe - (365 * yoe + yoe.fdiv 4 - yoe.fdiv 100)
  let mp := (5 * doy + 2).fdiv 153
  let d := doy - (153 * mp + 2).fdiv 5 + 1
  let m := if mp < 10 then mp + 3 else mp - 9
  ⟨y + (if m ≤ 2 then 1 else 0), m.toNat, d.toNat⟩

/-- Calendar date (UTC) of an epoch-millisecond instant. -/
def dateOfMs (ms : ℤ) : Ymd := civilFromDays (ms.fdiv 86400000)

/-- A time of day, as rendered by `toFormat('HH:mm:ss')`. -/
structure Hms where
  hour : Nat
  minute : Nat
  second : Nat
deriving DecidableEq

/-- Time of day (UTC) of an epoch-millisecond instant, seconds truncated. -/
def timeOfMs (ms : ℤ) : Hms :=
  let t := ms.fmod 86400000
  ⟨(t.fdiv 3600000).toNat, ((t.fmod 3600000).fdiv 60000).toNat,
    ((t.fmod 60000).fdiv 1000).toNat⟩

/-- `excelDateToJS` (src/unnamed/part_005 lines 3-10): a spreadsheet serial
becomes the instant `1899-12-30T00:00Z + floor(value) days + round(frac·day)`
milliseconds. `-25569` is the day number of 1899-12-30 (serial 25569 is
1970-01-01). -/
def excelDateToJS (q : JNum) : ℤ :=
  let days := q.floor
  let fractional := q.sub ⟨days, 1⟩
  let timeMs := JNum.jsRound (fractional.mul ⟨86400000, 1⟩)
  (-25569 : ℤ) * 86400000 + days * 86400000 + timeMs

/-- A calendar date built from parsed fields, validated the way Luxon
validates `fromFormat` / `fromObject` results. -/
def mkValidYmd (y : ℤ) (m d : Nat) : Option Ymd :=
  if 1 ≤ m && m ≤ 12 && 1 ≤ d && d ≤ daysInMonth y m then some ⟨y, m, d⟩ else none

/-- Luxon `fromFormat(text, 'dd/MM/yyyy')`: exactly two day digits, two month
digits and four year digits, anchored at both ends, then calendar-validated. -/
def fromFormatDDMMYYYY (s : List Char) : Option Ymd :=
  match s with
  | [d1, d2, '/', m1, m2, '/', y1, y2, y3, y4] =>
      if [d1, d2, m1, m2, y1, y2, y3, y4].all Char.isDigit then
        mkValidYmd (digitsToNat [y1, y2, y3, y4]) (digitsToNat [m1, m2]) (digitsToNat [d1, d2])
      else none
  | _ => none

/-- Luxon's two-digit-year completion with the default cutoff 60
(`26 ↦ 2026`, `61 ↦ 1961`). -/
def untruncateYear (n : Nat) : ℤ := if n > 60 then 1900 + n else 2000 + n

/-- Luxon `fromFormat(text, 'dd/MM/yy')`: the same with a two-digit year.
In `normalizeDate` this call is dead code (see the doc comment there), but it
is what the surrounding `||` expression was written to consult. -/
def fromFormatDDMMYY (s : List Char) : Option Ymd :=
  match s with
  | [d1, d2, '/', m1, m2, '/', y1, y2] =>
      if [d1, d2, m1, m2, y1, y2].all Char.isDigit then
        mkValidYmd (untruncateYear (digitsToNat [y1, y2])) (digitsToNat [m1, m2])
          (digitsToNat [d1, d2])
      else none
  | _ => none

/-- Two digit characters as a number, guarded. -/
def twoDigits? (a b : Char) : Option Nat :=
  if a.isDigit && b.isDigit then some (digitsToNat [a, b]) else none

/-- An optional ISO time suffix: empty, `THH:mm`, or `THH:mm:ss`. -/
def parseTimeSuffix : List Char → Option Hms
  | [] => some ⟨0, 0, 0⟩
  | ['T', h1, h2, ':', m1, m2] =>
      match twoDigits? h1 h2, twoDigits? m1 m2 with
      | some h, some m => if h ≤ 23 && m ≤ 59 then some ⟨h, m, 0⟩ else none
      | _, _ => none
  | ['T', h1, h2, ':', m1, m2, ':', s1, s2] =>
      match twoDigits? h1 h2, twoDigits? m1 m2, twoDigits? s1 s2 with
      | some h, some m, some s =>
          if h ≤ 23 && m ≤ 59 && s ≤ 59 then some ⟨h, m, s⟩ else none
      | _, _, _ => none
  | _ => none

/-- Modelled subset of Luxon `fromISO`, producing a civil datetime: accepts
`YYYY`, `YYYY-MM`, `YYYY-MM-DD`, the last optionally followed by `THH:mm` or
`THH:mm:ss`. Week dates, ordinal dates, the basic (dashless) format and
offset/zone suffixes are outside the model; no claim exercises them. -/
def parseISODateTime (s : List Char) : Option (Ymd × Hms) :=
  match s with
  | [y1, y2, y3, y4] =>
      if [y1, y2, y3, y4].all Char.isDigit then
        some (⟨digitsToNat [y1, y2, y3, y4], 1, 1⟩, ⟨0, 0, 0⟩)
      else none
  | [y1, y2, y3, y4, '-', m1, m2] =>
      if [y1, y2, y3, y4, m1, m2].all Char.isDigit then
        (mkValidYmd (digitsToNat [y1, y2, y3, y4]) (digitsToNat [m1, m2]) 1).map
          (fun d => (d, ⟨0, 0, 0⟩))
      else none
  | y1 :: y2 :: y3 :: y4 :: '-' :: m1 :: m2 :: '-' :: d1 :: d2 :: rest =>
      if [y1, y2, y3, y4, m1, m2, d1, d2].all Char.isDigit then
        match mkValidYmd (digitsToNat [y1, y2, y3, y4]) (digitsToNat [m1, m2])
            (digitsToNat [d1, d2]), parseTimeSuffix rest with
        | some d, some t => some (d, t)
        | _, _ => none
      else none
  | _ => none

/-- Luxon `fromISO` restricted to the calendar date, as consumed by
`toISODate`. -/
def parseISODate (s : List Char) : Option Ymd :=
  (parseISODateTime s).map Prod.fst

/-- The text branch of `normalizeDate`: `fromFormat(text,'dd/MM/yyyy')` is
consulted first; because `DateTime.fromFormat` returns an (always truthy)
DateTime object even when parsing fails, the `|| fromFormat(text,'dd/MM/yy')`
alternative is never evaluated, and an invalid first parse falls through to
`fromISO`. -/
def normalizeDateText (s : List Char) : Option Ymd :=
  let text := trimStr s
  match fromFormatDDMMYYYY text with
  | some d => some d
  | none => parseISODate text

/-- `normalizeDate` (src/unnamed/part_005 lines 12-30). Returns the calendar
date whose ISO rendering the source returns, or `none` for `null`. Native
dates are modelled as valid (`NaN` dates do not arise from the workbook
reader); numbers at or below the 30000 sanity threshold fall through to the
text branch on their decimal rendering. -/
def normalizeDate (v : CellValue) : Option Ymd :=
  match v with
  | .vnull => none
  | .vstr s => if s = [] then none else normalizeDateText s
  | .vdate ms => some (dateOfMs ms)
  | .vnum q =>
      if JNum.blt 30000 q then some (dateOfMs (excelDateToJS q))
      else normalizeDateText (numToStr q)

/-- Luxon `fromFormat(text, 'dd/MM/yyyy HH:mm')`, local (UTC) zone. -/
def fromFormatDDMMYYYYHM (s : List Char) : Option (Ymd × Hms) :=
  match s with
  | [d1, d2, '/', m1, m2, '/', y1, y2, y3, y4, ' ', h1, h2, ':', n1, n2] =>
      if [d1, d2, m1, m2, y1, y2, y3, y4, h1, h2, n1, n2].all Char.isDigit then
        match mkValidYmd (digitsToNat [y1, y2, y3, y4]) (digitsToNat [m1, m2])
            (digitsToNat [d1, d2]) with
        | some d =>
            let h := digitsToNat [h1, h2]
            let n := digitsToNat [n1, n2]
            if h ≤ 23 && n ≤ 59 then some (d, ⟨h, n, 0⟩) else none
        | none => none
      else none
  | _ => none

/-- Luxon `fromFormat(text, 'dd/MM/yyyy HH:mm:ss')`, local (UTC) zone. -/
def fromFormatDDMMYYYYHMS (s : List Char) : Option (Ymd × Hms) :=
  match s with
  | [d1, d2, '/', m1, m2, '/', y1, y2, y3, y4, ' ', h1, h2, ':', n1, n2, ':', s1, s2] =>
      if [d1, d2, m1, m2, y1, y2, y3, y4, h1, h2, n1, n2, s1, s2].all Char.isDigit then
        match mkValidYmd (digitsToNat [y1, y2, y3, y4]) (digitsToNat [m1, m2])
            (digitsToNat [d1, d2]) with
        | some d =>
            let h := digitsToNat [h1, h2]
            let n := digitsToNat [n1, n2]
            let sec := digitsToNat [s1, s2]
            if h ≤ 23 && n ≤ 59 && sec ≤ 59 then some (d, ⟨h, n, sec⟩) else none
        | none => none
      else none
  | _ => none

/-- The text branch of `splitDateTime`: strict ISO first, then the two
`dd/MM/yyyy HH:mm[:ss]` patterns. -/
def splitDateTimeText (s : List Char) : Option Ymd × Option Hms :=
  let text := trimStr s
  match parseISODateTime text with
  | some (d, t) => (some d, some t)
  | none =>
      match fromFormatDDMMYYYYHM text with
      | some (d, t) => (some d, some t)
      | none =>
          match fromFormatDDMMYYYYHMS text with
          | some (d, t) => (some d, some t)
          | none => (none, none)

/-- `splitDateTime` (src/unnamed/part_005 lines 32-55): independently nullable
date and time-of-day extracted from a datetime-bearing cell. -/
def splitDateTime (v : CellValue) : Option Ymd × Option Hms :=
  match v with
  | .vnull => (none, none)
  | .vstr s => if s = [] then (none, none) else splitDateTimeText s
  | .vdate ms => (some (dateOfMs ms), some (timeOfMs ms))
  | .vnum q =>
      if JNum.blt 30000 q then
        let ms := excelDateToJS q
        (some (dateOfMs ms), some (timeOfMs ms))
      else splitDateTimeText (numToStr q)

/-- A civil timestamp to minute precision, the information contents of the
"updated at" anchor. The source renders it with `toISO()` in the
`Europe/Paris` zone; the zone attachment is a rendering concern no claim
inspects, so the model carries the civil fields. -/
structure Ymdhm where
  year : ℤ
  month : Nat
  day : Nat
  hour : Nat
  minute : Nat
deriving DecidableEq

/-- Civil timestamp of an instant (UTC fields; see `Ymdhm` on the zone). -/
def ymdhmOfMs (ms : ℤ) : Ymdhm :=
  let d := dateOfMs ms
  let t := timeOfMs ms
  ⟨d.year, d.month, d.day, t.hour, t.minute⟩

/-- Up to `maxN` leading digits, greedily, with the rest of the input. -/
def takeDigits : Nat → List Char → List Char × List Char
  | 0, s => ([], s)
  | _ + 1, [] => ([], [])
  | n + 1, c :: rest =>
      if c.isDigit then
        let (ds, r) := takeDigits n rest
        (c :: ds, r)
      else ([], c :: rest)

/-- The capture groups of the update-stamp regex
`(\d{1,2})\/(\d{1,2})(?:\/(\d{2,4}))?\s*(\d{1,2})?:?(\d{2})?`. -/
structure UpdRaw where
  day : Nat
  month : Nat
  yearDigits : Option (List Char)
  hour : Option Nat
  minute : Option Nat
deriving DecidableEq

/-- Attempt the update-stamp regex at the head of the input (greedy
quantifiers; the one-digit backtrack for the day group coincides with
`takeDigits` stopping at the slash). -/
def matchUpdateAt (s : List Char) : Option UpdRaw :=
  let (dds, r1) := takeDigits 2 s
  if dds = [] then none
  else
    match r1 with
    | '/' :: r2 =>
        let (mds, r3) := takeDigits 2 r2
        if mds = [] then none
        else
          let (yearDigits, r4) :=
            match r3 with
            | '/' :: r3a =>
                let (yds, r3b) := takeDigits 4 r3a
                if yds.length ≥ 2 then (some yds, r3b) else (none, r3)
            | _ => (none, r3)
          let r5 := r4.dropWhile isWsChar
          let (hds, r6) := takeDigits 2 r5
          let r7 := match r6 with
            | ':' :: t => t
            | _ => r6
          let (nds, _) := takeDigits 2 r7
          some ⟨digitsToNat dds, digitsToNat mds, yearDigits,
            if hds = [] then none else some (digitsToNat hds),
            if nds.length = 2 then some (digitsToNat nds) else none⟩
    | _ => none

/-- First position at which the update-stamp regex matches (JavaScript
`String.prototype.match` searches left to right). -/
def findUpdateMatch : List Char → Option UpdRaw
  | [] => none
  | c :: t =>
      match matchUpdateAt (c :: t) with
      | some r => some r
      | none => findUpdateMatch t

/-- Luxon `fromObject` validity for the update stamp. -/
def mkValidYmdhm (y : ℤ) (mo d h mi : Nat) : Option Ymdhm :=
  if 1 ≤ mo && mo ≤ 12 && 1 ≤ d && d ≤ daysInMonth y mo && h ≤ 23 && mi ≤ 59 then
    some ⟨y, mo, d, h, mi⟩
  else none

/-- The text branch of `parseUpdateDate`: no-break spaces mapped to spaces,
trimmed, the `DD/MM[/YY[YY]] [HH[:MM]]` regex searched, a two-digit year
prefixed with `20`, a missing year replaced by the fallback year, missing
time fields by zero; on no regex match, strict ISO parsing. -/
def parseUpdateDateText (s : List Char) (fallbackYear : ℤ) : Option Ymdhm :=
  let text := trimStr (s.map (fun c => if c = ' ' then ' ' else c))
  match findUpdateMatch text with
  | some r =>
      let year : ℤ :=
        match r.yearDigits with
        | some yd => if yd.length = 2 then (2000 + digitsToNat yd : ℤ) else (digitsToNat yd : ℤ)
        | none => fallbackYear
      mkValidYmdhm year r.month r.day (r.hour.getD 0) (r.minute.getD 0)
  | none =>
      (parseISODateTime text).map
        (fun p => ⟨p.1.year, p.1.month, p.1.day, p.2.hour, p.2.minute⟩)

/-- `parseUpdateDate` (src/unnamed/part_005 lines 57-80). The source converts
native-date and serial inputs to the `Europe/Paris` zone before rendering;
the model keeps the UTC civil fields (the stamp is a pass-through channel no
claim inspects, see `Ymdhm`). -/
def parseUpdateDate (v : CellValue) (fallbackYear : ℤ) : Option Ymdhm :=
  match v with
  | .vnull => none
  | .vdate ms => some (ymdhmOfMs ms)
  | .vnum q =>
      if JNum.blt 30000 q then some (ymdhmOfMs (excelDateToJS q))
      else parseUpdateDateText (numToStr q) fallbackYear
  | .vstr s => if s = [] then none else parseUpdateDateText s fallbackYear

/-- A worksheet: a rectangular grid of unwrapped cell scalars, 1-indexed rows
and columns, absent cells reading as `null`. -/
structure Worksheet where
  rows : List (List CellValue)
deriving DecidableEq

/-- `worksheet.rowCount`. -/
def Worksheet.rowCount (ws : Worksheet) : Nat := ws.rows.length

/-- `worksheet.getRow(r).getCell(c).value`, 1-indexed. -/
def Worksheet.getCell (ws : Worksheet) (r c : Nat) : CellValue :=
  (ws.rows.getD (r - 1) []).getD (c - 1) .vnull

/-- `worksheet.columnCount` (widest row). -/
def Worksheet.columnCount (ws : Worksheet) : Nat :=
  (ws.rows.map List.length).foldr max 0

/-- `cellToValue` (src/unnamed/part_006 lines 3-14). The unwrapping of rich
text / formula-result objects happens before the `CellValue` scalar model, so
here it is the identity; it is kept as a named definition to mirror every
call site of the source. -/
def cellToValue (v : CellValue) : CellValue := v

/-- `readRowValues` (src/unnamed/part_006 lines 16-23). -/
def readRowValues (ws : Worksheet) (rowNumber startCol endCol : Nat) : List CellValue :=
  (List.range' startCol (endCol + 1 - startCol)).map (fun c => cellToValue (ws.getCell rowNumber c))

/-- `findLastColumn` (src/unnamed/part_006 lines 25-35): the last column of
the header row holding a non-blank value, or `startCol` if there is none. -/
def findLastColumn (ws : Worksheet) (headerRow startCol : Nat) : Nat :=
  (List.range' startCol (ws.columnCount + 1 - startCol)).foldl
    (fun last col => if !isBlankCell (cellToValue (ws.getCell headerRow col)) then col else last)
    startCol

/-- A workbook: named worksheets in file order. -/
structure Workbook where
  sheets : List (List Char × Worksheet)
deriving DecidableEq

/-- `workbook.getWorksheet(name)`. -/
def Workbook.getWorksheet (wb : Workbook) (name : List Char) : Option Worksheet :=
  (wb.sheets.find? (fun p => p.1 = name)).map Prod.snd

/-- `workbook.worksheets[0]`. -/
def Workbook.firstWorksheet (wb : Workbook) : Option Worksheet :=
  wb.sheets.head?.map Prod.snd

/-- JavaScript object update `o[k] = v` (insertion order kept, existing key
overwritten in place). -/
def objSet (o : List (List Char × CellValue)) (k : List Char) (v : CellValue) :
    List (List Char × CellValue) :=
  if o.any (fun p => p.1 = k) then o.map (fun p => if p.1 = k then (k, v) else p)
  else o ++ [(k, v)]

/-- JavaScript property read `o[k]`: `none` is `undefined`. -/
def objGet (o : List (List Char × CellValue)) (k : List Char) : Option CellValue :=
  (o.find? (fun p => p.1 = k)).map Prod.snd

/-- JavaScript `Object.values(o)`. -/
def objValues (o : List (List Char × CellValue)) : List CellValue := o.map Prod.snd

/-- `rowToObject` (src/unnamed/part_004 lines 134-140), also the inline
`headers.reduce` row-map builders of the normalizers (the `?? null` of the
former is the identity here because an out-of-range read is already `null`):
later duplicate headers overwrite earlier values. -/
def rowToObject (headers : List (List Char)) (values : List CellValue) :
    List (List Char × CellValue) :=
  headers.enum.foldl (fun acc p => objSet acc p.2 (values.getD p.1 .vnull)) []

/-- `String(value ?? '')`, the header rendering. -/
def jsStringOrEmpty (v : CellValue) : List Char :=
  match v with
  | .vnull => []
  | _ => jsToString v

/-- After `los`, the regex tail `\s*\d` (optional whitespace then a digit). -/
def losTail : List Char → Bool
  | [] => false
  | c :: rest => if c.isDigit then true else if isWsChar c then losTail rest else false

/-- Whether `los\s*\d` matches at the head of the (lowered) input. -/
def isAnnotationAt : List Char → Bool
  | 'l' :: 'o' :: 's' :: rest => losTail rest
  | _ => false

/-- Whether `los\s*\d` matches anywhere in the (lowered) input. -/
def losScan : List Char → Bool
  | [] => false
  | l@(_ :: t) => isAnnotationAt l || losScan t

/-- `ANNOTATION_PATTERN.test(s)` (src/unnamed/part_004 line 132): the
case-insensitive search `/(LOS\s*\d+|LOS\d+|annotation|note)/i` (the second
alternative is subsumed by the first). -/
def isAnnotationText (s : List Char) : Bool :=
  let l := strLower s
  losScan l || strHas l (str "annotation") || strHas l (str "note")

/-- The per-value test of `shouldSkipRow`:
`typeof val === 'string' && ANNOTATION_PATTERN.test(val)`. -/
def isAnnotationCell : CellValue → Bool
  | .vstr s => isAnnotationText s
  | _ => false

/-- `shouldSkipRow` (src/unnamed/part_004 lines 142-151): skip when the date
cell does not normalize, or when any scanned value is an annotation-marked
string. -/
def shouldSkipRow (dateValue : CellValue) (numericValues : List CellValue) : Bool :=
  (normalizeDate dateValue).isNone || numericValues.any isAnnotationCell

/-- `extractHeaders` (src/unnamed/part_004 lines 153-164): trimmed header
texts from the header row, optionally dropping blank ones, with the end
column recomputed from the retained header count. -/
def extractHeaders (ws : Worksheet) (headerRow startCol : Nat) (allowEmpty : Bool) :
    List (List Char) × Nat :=
  let endCol := findLastColumn ws headerRow startCol
  let headerValues := readRowValues ws headerRow startCol endCol
  let headers := headerValues.map (fun v => trimStr (jsStringOrEmpty v))
  let finalHeaders := if allowEmpty then headers else headers.filter (fun h => h ≠ [])
  (finalHeaders, startCol + finalHeaders.length - 1)

/-- The value pattern `x ? String(x) : null` (`none` plays both `undefined`
inputs and falsy ones). -/
def optStr (x : Option CellValue) : Option (List Char) :=
  match x with
  | some v => if truthy v then some (jsToString v) else none
  | none => none

/-- The pattern `x !== undefined ? parseNumeric(x) : null`. -/
def optParse (x : Option CellValue) : Option JNum :=
  match x with
  | some v => parseNumeric v
  | none => none

/-- The coercion-counter guard shared by the normalizers:
`parseNumeric(x) === null && x !== null && x !== undefined && String(x).trim() !== ''`. -/
def isCoerced (x : Option CellValue) : Bool :=
  (parseNumeric (x.getD .vnull)).isNone &&
    (match x with
     | some v => !(v = .vnull) && !(trimStr (jsToString v)).isEmpty
     | none => false)

/-- The pattern `x !== null && x !== undefined ? String(x) : null` used for
the `raw_*` audit fields. -/
def rawTextOf (x : Option CellValue) : Option (List Char) :=
  match x with
  | some v => if v = .vnull then none else some (jsToString v)
  | none => none

/-- One `planning_tarifs` output row
(src/src/normalizers/planningNormalizer.ts lines 6-13). -/
structure PlanningTarifRow where
  hotel_fk : List Char
  date : Ymd
  type_de_chambre : List Char
  plan_tarifaire : List Char
  tarif : Option JNum
deriving DecidableEq

/-- One `disponibilites` output row
(src/src/normalizers/planningNormalizer.ts lines 15-22). -/
structure DisponibiliteRow where
  hotel_fk : List Char
  date : Ymd
  type_de_chambre : List Char
  disponibilites : Option JNum
  ferme_a_la_vente : Option (List Char)
deriving DecidableEq

/-- The mutable state threaded through the planning normalizer's row scan:
the two output collections, the two counters, and the filled-down room-type
label. -/
structure PlanState where
  planningTarifs : List PlanningTarifRow
  disponibilites : List DisponibiliteRow
  rowsSkipped : Nat
  rowsCoerced : Nat
  currentRoomType : Option (List Char)
deriving DecidableEq

/-- The `rowData.forEach((cellValue, idx) => ...)` body of the planning
normalizer (src/src/normalizers/planningNormalizer.ts lines 73-114): a date
column without a parseable header date is ignored; on the availability
metric a blank cell bumps `rowsSkipped`, the literal `x` records a
closed-to-sale flag with availability zero and bumps `rowsCoerced`, anything
else records the parsed availability; on a price-like metric every cell
becomes a tariff row. -/
def planningCellStep (hotelFk roomType : List Char) (planTarifaire : Option (List Char))
    (metric : List Char) (dates : List (Option Ymd)) (s : PlanState) (p : Nat × CellValue) :
    PlanState :=
  match dates.getD p.1 none with
  | none => s
  | some date =>
      if strHas metric (str "left for sale") then
        if isBlankCell p.2 then { s with rowsSkipped := s.rowsSkipped + 1 }
        else
          let text := trimStr (jsToString p.2)
          let numericValue := parseNumeric (.vstr text)
          if strLower text = str "x" then
            { s with
                rowsCoerced := s.rowsCoerced + 1
                disponibilites := s.disponibilites ++
                  [⟨hotelFk, date, roomType, some 0, some (str "x")⟩] }
          else
            { s with disponibilites := s.disponibilites ++
                [⟨hotelFk, date, roomType, numericValue, none⟩] }
      else if strHas metric (str "price") || strHas metric (str "tarif") then
        { s with planningTarifs := s.planningTarifs ++
            [⟨hotelFk, date, roomType, planTarifaire.getD [], parseNumeric p.2⟩] }
      else s

/-- The room type resolved for a planning row: the trimmed column-1 label
when truthy and non-blank, else the filled-down current label
(src/src/normalizers/planningNormalizer.ts lines 56-58). -/
def planningResolvedRoom (ws : Worksheet) (rowIndex : Nat) (current : Option (List Char)) :
    Option (List Char) :=
  if truthy (cellToValue (ws.getCell rowIndex 1)) &&
      !(trimStr (jsToString (cellToValue (ws.getCell rowIndex 1)))).isEmpty then
    some (trimStr (jsToString (cellToValue (ws.getCell rowIndex 1))))
  else current

/-- The metric label of a planning row: column 3 lowered with whitespace
runs collapsed, empty for a falsy cell (line 63). -/
def planningMetric (ws : Worksheet) (rowIndex : Nat) : List Char :=
  if truthy (cellToValue (ws.getCell rowIndex 3)) then
    collapseWs (strLower (jsToString (cellToValue (ws.getCell rowIndex 3))))
  else []

/-- The tariff-plan label of a planning row: column 2 trimmed when truthy,
else `null` (line 64). -/
def planningPlan (ws : Worksheet) (rowIndex : Nat) : Option (List Char) :=
  if truthy (cellToValue (ws.getCell rowIndex 2)) then
    some (trimStr (jsToString (cellToValue (ws.getCell rowIndex 2))))
  else none

/-- One iteration of the planning normalizer's row loop
(src/src/normalizers/planningNormalizer.ts lines 45-115). A row blank across
both the three label columns and the date span is counted skipped; a
non-blank room-type label is carried into the state; a row with no resolved
room type is counted skipped; otherwise the cell loop runs. The source's
second `if (!roomType)` check is unreachable (it repeats the `match`) and is
therefore not repeated here. -/
def planningRowStep (ws : Worksheet) (hotelFk : List Char) (dates : List (Option Ymd))
    (startDateCol endDateCol : Nat) (s : PlanState) (rowIndex : Nat) : PlanState :=
  let rowValues := [cellToValue (ws.getCell rowIndex 1), cellToValue (ws.getCell rowIndex 2),
    cellToValue (ws.getCell rowIndex 3)]
  let rowData := readRowValues ws rowIndex startDateCol endDateCol
  if isRowEmpty rowValues && isRowEmpty rowData then
    { s with rowsSkipped := s.rowsSkipped + 1 }
  else
    match planningResolvedRoom ws rowIndex s.currentRoomType with
    | none => { s with rowsSkipped := s.rowsSkipped + 1 }
    | some roomType =>
        rowData.enum.foldl
          (planningCellStep hotelFk roomType (planningPlan ws rowIndex)
            (planningMetric ws rowIndex) dates)
          { s with currentRoomType := some roomType }

/-- The value returned by `planningNormalizer`. -/
structure PlanningResult where
  planningTarifs : List PlanningTarifRow
  disponibilites : List DisponibiliteRow
  rowsSkipped : Nat
  rowsCoerced : Nat
deriving DecidableEq

/-- `planningNormalizer` (src/src/normalizers/planningNormalizer.ts lines
24-118): unpivots the planning grid. Header dates live in row 1 from column 4
to the last populated header column; data rows follow. -/
def planningNormalizer (wb : Workbook) (hotelFk : List Char) :
    Except (List Char) PlanningResult :=
  match (wb.getWorksheet (str "Planning")).orElse (fun _ => wb.firstWorksheet) with
  | none => .error (str "Sheet Planning introuvable")
  | some ws =>
      let headerRow := 1
      let startDateCol := 4
      let endDateCol := findLastColumn ws headerRow startDateCol
      let dateValues := readRowValues ws headerRow startDateCol endDateCol
      let dates := dateValues.map normalizeDate
      let final := (List.range' (headerRow + 1) (ws.rowCount - headerRow)).foldl
        (planningRowStep ws hotelFk dates startDateCol endDateCol) ⟨[], [], 0, 0, none⟩
      .ok ⟨final.planningTarifs, final.disponibilites, final.rowsSkipped, final.rowsCoerced⟩

/-- One `events_calendar` output row
(src/src/normalizers/planningNormalizer.ts, events section, lines 124-134;
field names are the French header keys of the source with spaces and accents
flattened). -/
structure EventRow where
  hotel_fk : List Char
  evenement : Option (List Char)
  debut : Option Ymd
  fin : Option Ymd
  indice_impact : Option JNum
  multiplicateur : Option JNum
  pourquoi_cet_indice : Option (List Char)
  conseils_yield : Option (List Char)
deriving DecidableEq

/-- State of the events normalizer's row scan. -/
structure EventsState where
  events : List EventRow
  rowsSkipped : Nat
  rowsCoerced : Nat
deriving DecidableEq

/-- One iteration of the events normalizer's row loop (events section lines
152-182): a blank row is counted skipped; otherwise the two numeric fields
are parsed (bumping `rowsCoerced` when a truthy value fails to parse) and
exactly one event row is emitted. -/
def eventsRowStep (ws : Worksheet) (hotelFk : List Char) (headers : List (List Char))
    (startCol endCol : Nat) (s : EventsState) (rowIndex : Nat) : EventsState :=
  let values := readRowValues ws rowIndex startCol endCol
  if isRowEmpty values then { s with rowsSkipped := s.rowsSkipped + 1 }
  else
    let rowMap := rowToObject headers values
    let impactCell := (objGet rowMap (str "Indice impact attendu sur la demande /10")).getD .vnull
    let multCell := (objGet rowMap (str "Multiplicateur")).getD .vnull
    let impact := parseNumeric impactCell
    let multiplicateur := parseNumeric multCell
    let s1 :=
      if impact.isNone && truthy impactCell then { s with rowsCoerced := s.rowsCoerced + 1 }
      else s
    let s2 :=
      if multiplicateur.isNone && truthy multCell then { s1 with rowsCoerced := s1.rowsCoerced + 1 }
      else s1
    { s2 with events := s2.events ++
        [⟨hotelFk, optStr (objGet rowMap (str "Événement")),
          normalizeDate ((objGet rowMap (str "Début")).getD .vnull),
          normalizeDate ((objGet rowMap (str "Fin")).getD .vnull),
          impact, multiplicateur,
          optStr (objGet rowMap (str "Pourquoi cet indice")),
          optStr (objGet rowMap (str "Conseils yield"))⟩] }

/-- The value returned by `eventsNormalizer`. -/
structure EventsResult where
  events : List EventRow
  rowsSkipped : Nat
  rowsCoerced : Nat
deriving DecidableEq

/-- `eventsNormalizer` (src/src/normalizers/planningNormalizer.ts, events
section, lines 136-185): headers in row 1 of the first worksheet, one event
row per non-blank data row. -/
def eventsNormalizer (wb : Workbook) (hotelFk : List Char) : Except (List Char) EventsResult :=
  match wb.firstWorksheet with
  | none => .error (str "Feuille événements introuvable")
  | some ws =>
      let headerRow := 1
      let startCol := 1
      let endCol := findLastColumn ws headerRow startCol
      let headers := (readRowValues ws headerRow startCol endCol).map
        (fun v => trimStr (jsStringOrEmpty v))
      let final := (List.range' (headerRow + 1) (ws.rowCount - headerRow)).foldl
        (eventsRowStep ws hotelFk headers startCol endCol) ⟨[], 0, 0⟩
      .ok ⟨final.events, final.rowsSkipped, final.rowsCoerced⟩

/-- Zero-padded two-digit rendering. -/
def pad2 (n : Nat) : List Char := if n < 10 then '0' :: natDigits n else natDigits n

/-- Zero-padded four-digit rendering (years of interest are positive). -/
def pad4 (n : Nat) : List Char :=
  let ds := natDigits n
  List.replicate (4 - ds.length) '0' ++ ds

/-- The ISO rendering `YYYY-MM-DD` of a calendar date. -/
def ymdRender (d : Ymd) : List Char :=
  pad4 d.year.toNat ++ '-' :: (pad2 d.month ++ '-' :: pad2 d.day)

/-- The rendering `HH:mm:ss` of a time of day. -/
def hmsRender (t : Hms) : List Char :=
  pad2 t.hour ++ ':' :: (pad2 t.minute ++ ':' :: pad2 t.second)

/-- A nullable ISO date written back into a row map. -/
def ymdCell : Option Ymd → CellValue
  | some d => .vstr (ymdRender d)
  | none => .vnull

/-- A nullable time written back into a row map. -/
def hmsCell : Option Hms → CellValue
  | some t => .vstr (hmsRender t)
  | none => .vnull

/-- A nullable number written back into a row map. -/
def numCell : Option JNum → CellValue
  | some q => .vnum q
  | none => .vnull

/-- JavaScript `Math.trunc` (toward zero). -/
def JNum.trunc (q : JNum) : ℤ := q.num.tdiv (q.den : ℤ)

/-- One `booking_export` output row
(src/src/normalizers/bookingExportNormalizer.ts lines 6-9): the hotel key
plus the mutated header-keyed row map (`{ hotel_fk, ...rowMap }`; no source
workbook uses `hotel_fk` as a column header, so the spread never collides). -/
structure BookingExportRow where
  hotel_fk : List Char
  fields : List (List Char × CellValue)
deriving DecidableEq

/-- State of the booking-export normalizer's row scan. -/
structure ExportState where
  bookingExport : List BookingExportRow
  rowsSkipped : Nat
  rowsCoerced : Nat
deriving DecidableEq

/-- The three datetime column pairs of the booking export (date column,
derived time column). -/
def exportDatetimeColumns : List (List Char × List Char) :=
  [(str "Date d'achat", str "Heure d'achat"),
   (str "Dernière modification", str "Heure de dernière modification"),
   (str "Date d'annulation", str "Heure d'annulation")]

/-- The two plain date columns of the booking export. -/
def exportDateColumns : List (List Char) := [str "Date d'arrivée", str "Date de départ"]

/-- The three monetary columns of the booking export. -/
def exportNumericColumns : List (List Char) :=
  [str "Montant total", str "Montant du panier", str "Montant restant"]

/-- The count-like columns of the booking export, coerced to integers. -/
def exportIntColumns : List (List Char) :=
  [str "Hôtel (ID)", str "Nuits", str "Chambres", str "Adultes", str "Enfants", str "Bébés",
   str "Garantie", str "Partenaire de distribution (ID)"]

/-- One iteration of the booking-export row loop
(src/src/normalizers/bookingExportNormalizer.ts lines 37-75): a blank row is
counted skipped; otherwise date columns are normalized in place, datetime
columns split into date and time, monetary columns parsed (counting
coercions), count columns parsed and truncated, and exactly one row is
emitted. -/
def bookingExportRowStep (ws : Worksheet) (hotelFk : List Char) (headers : List (List Char))
    (startCol endCol : Nat) (s : ExportState) (rowIndex : Nat) : ExportState :=
  let values := readRowValues ws rowIndex startCol endCol
  if isRowEmpty values then { s with rowsSkipped := s.rowsSkipped + 1 }
  else
    let rowMap0 := rowToObject headers values
    let rowMap1 := exportDateColumns.foldl
      (fun m col => objSet m col (ymdCell (normalizeDate ((objGet m col).getD .vnull)))) rowMap0
    let rowMap2 := exportDatetimeColumns.foldl
      (fun m p =>
        let dt := splitDateTime ((objGet m p.1).getD .vnull)
        objSet (objSet m p.1 (ymdCell dt.1)) p.2 (hmsCell dt.2))
      rowMap1
    let numStep := fun (acc : List (List Char × CellValue) × Nat) (col : List Char) =>
      let x := objGet acc.1 col
      let parsed := parseNumeric (x.getD .vnull)
      let coerced := if isCoerced x then acc.2 + 1 else acc.2
      (objSet acc.1 col (numCell parsed), coerced)
    let acc3 := exportNumericColumns.foldl numStep (rowMap2, s.rowsCoerced)
    let intStep := fun (acc : List (List Char × CellValue) × Nat) (col : List Char) =>
      let x := objGet acc.1 col
      let numeric := parseNumeric (x.getD .vnull)
      let coerced := if isCoerced x then acc.2 + 1 else acc.2
      (objSet acc.1 col
        (match numeric with
         | some q => .vnum ⟨q.trunc, 1⟩
         | none => .vnull), coerced)
    let acc4 := exportIntColumns.foldl intStep acc3
    { s with
        rowsCoerced := acc4.2
        bookingExport := s.bookingExport ++ [⟨hotelFk, acc4.1⟩] }

/-- The value returned by `bookingExportNormalizer`. -/
structure BookingExportResult where
  bookingExport : List BookingExportRow
  rowsSkipped : Nat
  rowsCoerced : Nat
deriving DecidableEq

/-- `bookingExportNormalizer` (src/src/normalizers/bookingExportNormalizer.ts
lines 11-78): fixed wide schema over the first worksheet, headers in row 1. -/
def bookingExportNormalizer (wb : Workbook) (hotelFk : List Char) :
    Except (List Char) BookingExportResult :=
  match wb.firstWorksheet with
  | none => .error (str "Feuille BookingExport introuvable")
  | some ws =>
      let headerRow := 1
      let startCol := 1
      let endCol := findLastColumn ws headerRow startCol
      let headers := (readRowValues ws headerRow startCol endCol).map
        (fun v => trimStr (jsStringOrEmpty v))
      let final := (List.range' (headerRow + 1) (ws.rowCount - headerRow)).foldl
        (bookingExportRowStep ws hotelFk headers startCol endCol) ⟨[], 0, 0⟩
      .ok ⟨final.bookingExport, final.rowsSkipped, final.rowsCoerced⟩

/-- One `booking_apercu` output row (src/unnamed/part_004 lines 65-81; field
names are the source's French header keys, flattened). -/
structure ApercuRow where
  hotel_fk : List Char
  date_mise_a_jour : Option Ymdhm
  jour : Option (List Char)
  date : Option Ymd
  votre_hotel_le_plus_bas : JNum
  tarif_le_plus_bas : Option JNum
  mediane_du_compset : Option JNum
  tarif_le_plus_bas_mediane_du_compset : Option JNum
  classement_des_tarifs_du_compset : Option (List Char)
  demande_du_marche : JNum
  booking_com_classement : Option (List Char)
  jours_feries : Option (List Char)
  evenements : Option (List Char)
  raw_row : List (List Char × CellValue)
deriving DecidableEq

/-- One `booking_tarifs_market` output row (src/unnamed/part_004 lines
83-91). -/
structure TarifsMarketRow where
  hotel_fk : List Char
  date_mise_a_jour : Option Ymdhm
  jour : Option (List Char)
  date : Option Ymd
  demande_du_marche : JNum
  raw_row : List (List Char × CellValue)
deriving DecidableEq

/-- One `booking_tarifs_competitors` output row (src/unnamed/part_004 lines
93-102). -/
structure TarifsCompetitorRow where
  hotel_fk : List Char
  date_mise_a_jour : Option Ymdhm
  jour : Option (List Char)
  date : Option Ymd
  competitor_name : List Char
  price : JNum
  raw_price : Option (List Char)
deriving DecidableEq

/-- One `booking_vs_market` output row (src/unnamed/part_004 lines 104-116). -/
structure VsMarketRow where
  hotel_fk : List Char
  date_mise_a_jour : Option Ymdhm
  horizon : List Char
  jour : Option (List Char)
  date : Option Ymd
  demande_du_marche : JNum
  delta_demande : JNum
  raw_demande : Option (List Char)
  raw_delta_demande : Option (List Char)
  raw_row : List (List Char × CellValue)
deriving DecidableEq

/-- One `booking_vs_competitors` output row (src/unnamed/part_004 lines
118-130). -/
structure VsCompetitorRow where
  hotel_fk : List Char
  date_mise_a_jour : Option Ymdhm
  horizon : List Char
  jour : Option (List Char)
  date : Option Ymd
  competitor_name : List Char
  price : JNum
  delta : JNum
  raw_price : Option (List Char)
  raw_delta : Option (List Char)
deriving DecidableEq

/-- The accumulator of the booking-comparison normalizer: the five output
collections, the discovered-competitor set (insertion ordered, deduplicated,
as `Array.from(new Set())` preserves), and the two counters. -/
structure BLState where
  bookingApercu : List ApercuRow
  bookingTarifsMarket : List TarifsMarketRow
  bookingTarifsCompetitors : List TarifsCompetitorRow
  bookingVsMarket : List VsMarketRow
  bookingVsCompetitors : List VsCompetitorRow
  competitors : List (List Char)
  rowsSkipped : Nat
  rowsCoerced : Nat
deriving DecidableEq

/-- `Set.prototype.add` on the insertion-ordered competitor list. -/
def addCompetitor (l : List (List Char)) (x : List Char) : List (List Char) :=
  if l.contains x then l else l ++ [x]

/-- One iteration of the overview (`Aperçu`) row loop (src/unnamed/part_004
lines 213-254): a blank row is silently dropped (no counter); `shouldSkipRow`
is consulted with only the two numeric columns as scanned values; otherwise
one overview row is emitted, bumping `rowsCoerced` for each of the two
numeric cells that is non-blank yet unparseable. -/
def apercuRowStep (ws : Worksheet) (hotelFk : List Char) (dmaj : Option Ymdhm)
    (headers : List (List Char)) (startCol endCol : Nat) (s : BLState) (rowIndex : Nat) :
    BLState :=
  let values := readRowValues ws rowIndex startCol endCol
  if isRowEmpty values then s
  else
    let rawRow := rowToObject headers values
    let rowMap := rowToObject headers values
    let dateValue := objGet rowMap (str "Date")
    let numericValues := [str "Votre hôtel le plus bas", str "Demande du marché"].map
      (fun k => (objGet rowMap k).getD .vnull)
    if shouldSkipRow (dateValue.getD .vnull) numericValues then
      { s with rowsSkipped := s.rowsSkipped + 1 }
    else
      let mergedHeader := headers.find? (fun h =>
        strHas (strLower h) (str "tarif le plus bas") && strHas (strLower h) (str "médiane"))
      let votreHotel := objGet rowMap (str "Votre hôtel le plus bas")
      let demandeMarche := objGet rowMap (str "Demande du marché")
      let s1 :=
        if isCoerced votreHotel then { s with rowsCoerced := s.rowsCoerced + 1 } else s
      let s2 :=
        if isCoerced demandeMarche then { s1 with rowsCoerced := s1.rowsCoerced + 1 } else s1
      { s2 with bookingApercu := s2.bookingApercu ++
          [{ hotel_fk := hotelFk
             date_mise_a_jour := dmaj
             jour := optStr (objGet rowMap (str "Jour"))
             date := normalizeDate (dateValue.getD .vnull)
             votre_hotel_le_plus_bas := parseNumericZero (votreHotel.getD .vnull)
             tarif_le_plus_bas := optParse (objGet rowMap (str "Tarif le plus bas"))
             mediane_du_compset := optParse (objGet rowMap (str "médiane du compset"))
             tarif_le_plus_bas_mediane_du_compset :=
               mergedHeader.bind (fun h => parseNumeric ((objGet rowMap h).getD .vnull))
             classement_des_tarifs_du_compset :=
               optStr (objGet rowMap (str "Classement des tarifs du compset"))
             demande_du_marche := parseNumericZero (demandeMarche.getD .vnull)
             booking_com_classement := optStr (objGet rowMap (str "Booking.com Classement"))
             jours_feries := optStr (objGet rowMap (str "Jours fériés"))
             evenements := optStr (objGet rowMap (str "Événements"))
             raw_row := rawRow }] }

/-- One iteration of the market-rate (`Tarifs`) row loop
(src/unnamed/part_004 lines 263-315): a blank row is silently dropped;
`shouldSkipRow` is consulted with every value of the row map; otherwise one
market row is emitted, and then one competitor row per non-fixed header,
accumulating the competitor set and the coercion counter. -/
def tarifsRowStep (ws : Worksheet) (hotelFk : List Char) (dmaj : Option Ymdhm)
    (headers : List (List Char)) (startCol endCol : Nat) (s : BLState) (rowIndex : Nat) :
    BLState :=
  let values := readRowValues ws rowIndex startCol endCol
  if isRowEmpty values then s
  else
    let rawRow := rowToObject headers values
    let rowMap := rowToObject headers values
    let dateValue := objGet rowMap (str "Date")
    if shouldSkipRow (dateValue.getD .vnull) (objValues rowMap) then
      { s with rowsSkipped := s.rowsSkipped + 1 }
    else
      let jour := optStr (objGet rowMap (str "Jour"))
      let date := normalizeDate (dateValue.getD .vnull)
      let demandeValue := objGet rowMap (str "Demande du marché")
      let s1 :=
        if isCoerced demandeValue then { s with rowsCoerced := s.rowsCoerced + 1 } else s
      let demande := parseNumericZero (demandeValue.getD .vnull)
      let s2 := { s1 with bookingTarifsMarket := s1.bookingTarifsMarket ++
          [⟨hotelFk, dmaj, jour, date, demande, rawRow⟩] }
      headers.foldl
        (fun st header =>
          if header = str "Jour" || header = str "Date" || header = str "Demande du marché" then
            st
          else
            let rawPrice := objGet rowMap header
            let st1 :=
              if isCoerced rawPrice then { st with rowsCoerced := st.rowsCoerced + 1 } else st
            let numeric := parseNumericZero (rawPrice.getD .vnull)
            let rawText := rawTextOf rawPrice
            { st1 with
                competitors := addCompetitor st1.competitors header
                bookingTarifsCompetitors := st1.bookingTarifsCompetitors ++
                  [⟨hotelFk, dmaj, jour, date, header, numeric, rawText⟩] })
        s2

/-- The paired-column header reconstruction of the versus sheets
(src/unnamed/part_004 lines 333-342): a blank header directly following a
named one becomes `named__delta`. -/
def reconstructHeaders (headers : List (List Char)) : List (List Char) :=
  (headers.foldl
    (fun (acc : List (List Char) × List Char) header =>
      if header = [] && acc.2 ≠ [] then (acc.1 ++ [acc.2 ++ str "__delta"], acc.2)
      else (acc.1 ++ [header], header))
    ([], [])).1

/-- One iteration of a versus-sheet row loop (src/unnamed/part_004 lines
344-416): a blank row is silently dropped; `shouldSkipRow` sees every value
of the reconstructed row map; otherwise one market-demand row is emitted,
then one competitor row per non-fixed, non-delta header, pairing each with
its `__delta` column. -/
def vsRowStep (ws : Worksheet) (hotelFk : List Char) (dmaj : Option Ymdhm)
    (horizon : List Char) (reconstructedHeaders : List (List Char)) (startCol endCol : Nat)
    (s : BLState) (rowIndex : Nat) : BLState :=
  let values := readRowValues ws rowIndex startCol endCol
  if isRowEmpty values then s
  else
    let rawRow := rowToObject reconstructedHeaders values
    let rowMap := rowToObject reconstructedHeaders values
    if shouldSkipRow ((objGet rowMap (str "Date")).getD .vnull) (objValues rowMap) then
      { s with rowsSkipped := s.rowsSkipped + 1 }
    else
      let jour := optStr (objGet rowMap (str "Jour"))
      let date := normalizeDate ((objGet rowMap (str "Date")).getD .vnull)
      let demandeValue := objGet rowMap (str "Demande du marché")
      let deltaDemandeValue := objGet rowMap (str "Demande du marché__delta")
      let s1 :=
        if isCoerced demandeValue then { s with rowsCoerced := s.rowsCoerced + 1 } else s
      let s2 :=
        if isCoerced deltaDemandeValue then { s1 with rowsCoerced := s1.rowsCoerced + 1 } else s1
      let demande := parseNumericZero (demandeValue.getD .vnull)
      let deltaDemande := parseNumericZero (deltaDemandeValue.getD .vnull)
      let s3 := { s2 with bookingVsMarket := s2.bookingVsMarket ++
          [⟨hotelFk, dmaj, horizon, jour, date, demande, deltaDemande,
            rawTextOf demandeValue, rawTextOf deltaDemandeValue, rawRow⟩] }
      reconstructedHeaders.foldl
        (fun st header =>
          if [str "Jour", str "Date", str "Demande du marché",
              str "Demande du marché__delta"].contains header then
            st
          else if (str "__delta").isSuffixOf header then st
          else
            let deltaHeader := header ++ str "__delta"
            let rawPrice := objGet rowMap header
            let rawDelta := objGet rowMap deltaHeader
            let st1 :=
              if isCoerced rawPrice then { st with rowsCoerced := st.rowsCoerced + 1 } else st
            let st2 :=
              if isCoerced rawDelta then { st1 with rowsCoerced := st1.rowsCoerced + 1 } else st1
            let price := parseNumericZero (rawPrice.getD .vnull)
            let delta := parseNumericZero (rawDelta.getD .vnull)
            let rawPriceText := rawTextOf rawPrice
            let rawDeltaText := rawTextOf rawDelta
            { st2 with
                competitors := addCompetitor st2.competitors header
                bookingVsCompetitors := st2.bookingVsCompetitors ++
                  [⟨hotelFk, dmaj, horizon, jour, date, header, price, delta,
                    rawPriceText, rawDeltaText⟩] })
        s3

/-- `parseUpdateDateFromSheet` (src/unnamed/part_004 lines 166-186): the G3
anchor first, then a scan of rows 1-5 for a cell containing `mis`
(case-insensitive) whose right neighbour parses. -/
def parseUpdateDateFromSheet (ws : Worksheet) (fallbackYear : ℤ) : Option Ymdhm :=
  let g3 := cellToValue (ws.getCell 3 7)
  match parseUpdateDate g3 fallbackYear with
  | some p => some p
  | none =>
      (List.range' 1 5).findSome? (fun rowIndex =>
        (List.range' 1 ws.columnCount).findSome? (fun colIndex =>
          match cellToValue (ws.getCell rowIndex colIndex) with
          | .vstr t =>
              if strHas (strLower t) (str "mis") then
                parseUpdateDate (cellToValue (ws.getCell rowIndex (colIndex + 1))) fallbackYear
              else none
          | _ => none))

/-- The value returned by `bookingLowestNormalizer`. -/
structure BookingLowestResult where
  dateMiseAJour : Option Ymdhm
  bookingApercu : List ApercuRow
  bookingTarifsMarket : List TarifsMarketRow
  bookingTarifsCompetitors : List TarifsCompetitorRow
  bookingVsMarket : List VsMarketRow
  bookingVsCompetitors : List VsCompetitorRow
  competitors : List (List Char)
  rowsSkipped : Nat
  rowsCoerced : Nat
deriving DecidableEq

/-- The three versus-sheet configurations (src/unnamed/part_004 lines
318-322). -/
def vsSheetConfigs : List (List Char × List Char) :=
  [(str "vs. Hier", str "hier"), (str "vs. 3 jours", str "3j"), (str "vs. 7 jours", str "7j")]

/-- `bookingLowestNormalizer` (src/unnamed/part_004 lines 188-429). The
wall-clock `DateTime.now().year` of the source is the `fallbackYear`
parameter. Each present sheet is processed with headers in row 5 starting at
column 2; missing sheets are skipped. -/
def bookingLowestNormalizer (wb : Workbook) (hotelFk : List Char) (fallbackYear : ℤ) :
    BookingLowestResult :=
  let tarifsSheet := wb.getWorksheet (str "Tarifs")
  let dateMiseAJour :=
    match tarifsSheet with
    | some ws => parseUpdateDateFromSheet ws fallbackYear
    | none => none
  let s0 : BLState := ⟨[], [], [], [], [], [], 0, 0⟩
  let s1 :=
    match wb.getWorksheet (str "Aperçu") with
    | some ws =>
        let he := extractHeaders ws 5 2 false
        (List.range' 6 (ws.rowCount - 5)).foldl
          (apercuRowStep ws hotelFk dateMiseAJour he.1 2 he.2) s0
    | none => s0
  let s2 :=
    match tarifsSheet with
    | some ws =>
        let he := extractHeaders ws 5 2 false
        (List.range' 6 (ws.rowCount - 5)).foldl
          (tarifsRowStep ws hotelFk dateMiseAJour he.1 2 he.2) s1
    | none => s1
  let s3 := vsSheetConfigs.foldl
    (fun st cfg =>
      match wb.getWorksheet cfg.1 with
      | none => st
      | some ws =>
          let he := extractHeaders ws 5 2 true
          let rHeaders := reconstructHeaders he.1
          (List.range' 6 (ws.rowCount - 5)).foldl
            (vsRowStep ws hotelFk dateMiseAJour cfg.2 rHeaders 2 he.2) st)
    s2
  ⟨dateMiseAJour, s3.bookingApercu, s3.bookingTarifsMarket, s3.bookingTarifsCompetitors,
    s3.bookingVsMarket, s3.bookingVsCompetitors, s3.competitors, s3.rowsSkipped, s3.rowsCoerced⟩

/-- The orchestrator's accumulator (src/unnamed/part_007 lines 8-14). -/
structure ImportStats where
  rowsInserted : Nat
  rowsSkipped : Nat
  rowsCoerced : Nat
  rowErrors : Nat
  errors : List (List Char)
deriving DecidableEq

/-- Fuel worker for `chunksOf` (fuel `≥` length suffices when the chunk size
is positive). -/
def chunksOfAux {α : Type} (n : Nat) : Nat → List α → List (List α)
  | _, [] => []
  | 0, _ => []
  | fuel + 1, xs => xs.take n :: chunksOfAux n fuel (xs.drop n)

/-- The batch partition produced by
`for (i = 0; i < rows.length; i += batchSize) rows.slice(i, i + batchSize)`
(src/unnamed/part_007 lines 84-85), for a positive batch size. -/
def chunksOf {α : Type} (n : Nat) (xs : List α) : List (List α) :=
  chunksOfAux n xs.length xs

/-- The store's observable behaviour during one run: the error returned by
the `i`-th batch insert into a table, by the `i`-th `import_runs` update, and
by the competitor upsert (whose result the source never reads). -/
structure Store where
  insertErr : List Char → Nat → Option (List Char)
  updateErr : Nat → Option (List Char)
  compErr : Option (List Char)

/-- The final `import_runs` update payload (src/unnamed/part_007 lines
165-177 and 189-194). `finishedAtSet` records that `finished_at` is written
(the wall-clock value itself is outside the model); absent meta counts are
`none` (the catch-path payload carries only the error list). -/
structure UpdatePayload where
  status : List Char
  finishedAtSet : Bool
  errorMessage : Option (List Char)
  metaRowsInserted : Option Nat
  metaRowsSkipped : Option Nat
  metaRowsCoerced : Option Nat
  metaRowErrors : Option Nat
  metaErrorRate : Option JNum
  metaErrors : List (List Char)
deriving DecidableEq

/-- One store operation issued by the run, with the store's response. The
competitor upsert records no response because the source discards it. -/
inductive StoreOp where
  | insertOp (table : List Char) (count : Nat) (err : Option (List Char))
  | compUpsertOp (names : List (List Char))
  | updateOp (payload : UpdatePayload) (err : Option (List Char))
deriving DecidableEq

/-- The JSON summary printed on the success path (src/unnamed/part_007 lines
179-186). -/
structure RunSummary where
  status : List Char
  rowsInserted : Nat
  rowsSkipped : Nat
  rowsCoerced : Nat
  rowErrors : Nat
  errorRate : JNum
deriving DecidableEq

/-- The observable outcome of one `run()` call after the run record is
opened: the store operations issued in order, the exception propagated to
the caller (if any), and the printed summary (if reached). -/
structure RunOutcome where
  trace : List StoreOp
  raised : Option (List Char)
  printed : Option RunSummary
deriving DecidableEq

/-- `batchInsert` (src/unnamed/part_007 lines 83-94): inserts the rows chunk
by chunk; a failing chunk adds its length to `rowErrors` and appends
`"table: message"` to the error list, a succeeding chunk adds its length to
`rowsInserted`; processing always continues with the next chunk.
`batchStep` is one iteration of its loop body, `batchInsert` the loop over
the enumerated chunks. -/
def batchStep {α : Type} (store : Store) (table : List Char)
    (acc : ImportStats × List StoreOp) (p : Nat × List α) : ImportStats × List StoreOp :=
  match store.insertErr table p.1 with
  | some e =>
      ({ acc.1 with
          rowErrors := acc.1.rowErrors + p.2.length
          errors := acc.1.errors ++ [table ++ str ": " ++ e] },
        acc.2 ++ [.insertOp table p.2.length (some e)])
  | none =>
      ({ acc.1 with rowsInserted := acc.1.rowsInserted + p.2.length },
        acc.2 ++ [.insertOp table p.2.length none])

def batchInsert {α : Type} (batchSize : Nat) (store : Store) (table : List Char)
    (rows : List α) (acc : ImportStats × List StoreOp) : ImportStats × List StoreOp :=
  ((chunksOf batchSize rows).enum).foldl (batchStep store table) acc

/-- What one normalizer call hands the orchestrator: the named output
collections (rows erased to their multiplicity), the discovered competitor
labels (`[]` outside the booking-comparison branch, whose code is the only
caller of `upsertCompetitors`), and the two counters. -/
structure NormOut (Row : Type) where
  collections : List (List Char × List Row)
  competitors : List (List Char)
  rowsSkipped : Nat
  rowsCoerced : Nat

/-- The error-rate formula of the orchestrator (src/unnamed/part_007 lines
161-162): `rowErrors / (rowsInserted + rowErrors)`, zero when the
denominator is zero. -/
def errorRateOf (inserted errored : Nat) : JNum :=
  if inserted + errored = 0 then 0 else ⟨errored, inserted + errored⟩

/-- `errors.join('; ')`. -/
def joinSemicolon : List (List Char) → List Char
  | [] => []
  | [x] => x
  | x :: rest => x ++ str "; " ++ joinSemicolon rest

/-- The message of the exception thrown by `updateImportRun`
(src/unnamed/part_007 lines 76-81) when the store reports an error. -/
def updFailMsg (e : List Char) : List Char := str "import_runs update failed: " ++ e

/-- The catch-path terminal payload (src/unnamed/part_007 lines 189-194). -/
def failedPayload (m : List Char) : UpdatePayload :=
  ⟨str "failed", true, some m, none, none, none, none, none, [m]⟩

/-- The tail of the success path of `run()` after the batch-insert loop
(src/unnamed/part_007 lines 138-139, 146-147, 150-186): the competitor
upsert when the discovered set is non-empty (its response discarded), the
stats merge, the error rate and status, the terminal update and the printed
summary — as a function of the batch loop's accumulator. A store error on
the terminal update throws inside the `try` and is caught like any other
exception, whereupon the catch issues its own terminal update, whose own
store error propagates in place of the original exception. -/
def runOk {Row : Type} (errorRateThreshold : JNum) (store : Store) (out : NormOut Row)
    (acc : ImportStats × List StoreOp) : RunOutcome :=
  let tr1 :=
    if out.competitors.isEmpty then acc.2 else acc.2 ++ [.compUpsertOp out.competitors]
  let stats :=
    { acc.1 with
        rowsSkipped := acc.1.rowsSkipped + out.rowsSkipped
        rowsCoerced := acc.1.rowsCoerced + out.rowsCoerced }
  let errorRate : JNum := errorRateOf stats.rowsInserted stats.rowErrors
  let status :=
    if JNum.blt errorRateThreshold errorRate then str "failed" else str "success"
  let payload : UpdatePayload :=
    ⟨status, true,
      (if stats.errors.isEmpty then none else some (joinSemicolon stats.errors)),
      some stats.rowsInserted, some stats.rowsSkipped, some stats.rowsCoerced,
      some stats.rowErrors, some errorRate, stats.errors⟩
  match store.updateErr 0 with
  | none =>
      ⟨tr1 ++ [.updateOp payload none], none,
        some ⟨status, stats.rowsInserted, stats.rowsSkipped, stats.rowsCoerced,
          stats.rowErrors, errorRate⟩⟩
  | some e =>
      let m := updFailMsg e
      match store.updateErr 1 with
      | none =>
          ⟨tr1 ++ [.updateOp payload (some e), .updateOp (failedPayload m) none],
            some m, none⟩
      | some e2 =>
          ⟨tr1 ++ [.updateOp payload (some e), .updateOp (failedPayload m) (some e2)],
            some (updFailMsg e2), none⟩

/-- `run()` after the run record is opened (src/unnamed/part_007 lines
121-196): the dispatch outcome either jumps to the catch (`.error`) or flows
through the batch-insert loop into `runOk`. -/
def run {Row : Type} (batchSize : Nat) (errorRateThreshold : JNum) (store : Store)
    (norm : Except (List Char) (NormOut Row)) : RunOutcome :=
  match norm with
  | .error m =>
      match store.updateErr 0 with
      | none => ⟨[.updateOp (failedPayload m) none], some m, none⟩
      | some e => ⟨[.updateOp (failedPayload m) (some e)], some (updFailMsg e), none⟩
  | .ok out =>
      runOk errorRateThreshold store out
        (out.collections.foldl
          (fun acc c => batchInsert batchSize store c.1 c.2 acc) (⟨0, 0, 0, 0, []⟩, []))

/-- The dispatch switch of `run()` (src/unnamed/part_007 lines 122-159):
selects the normalizer by template name, erases its typed rows to
multiplicities, and surfaces the thrown errors; an unknown template is the
thrown configuration error. -/
def dispatch (template : List Char) (wb : Workbook) (hotelFk : List Char)
    (fallbackYear : ℤ) : Except (List Char) (NormOut Unit) :=
  if template = str "planning" then
    (planningNormalizer wb hotelFk).map (fun r =>
      ⟨[(str "planning_tarifs", r.planningTarifs.map (fun _ => ())),
        (str "disponibilites", r.disponibilites.map (fun _ => ()))],
        [], r.rowsSkipped, r.rowsCoerced⟩)
  else if template = str "booking_lowest" then
    let r := bookingLowestNormalizer wb hotelFk fallbackYear
    .ok ⟨[(str "booking_apercu", r.bookingApercu.map (fun _ => ())),
      (str "booking_tarifs_market", r.bookingTarifsMarket.map (fun _ => ())),
      (str "booking_tarifs_competitors", r.bookingTarifsCompetitors.map (fun _ => ())),
      (str "booking_vs_market", r.bookingVsMarket.map (fun _ => ())),
      (str "booking_vs_competitors", r.bookingVsCompetitors.map (fun _ => ()))],
      r.competitors, r.rowsSkipped, r.rowsCoerced⟩
  else if template = str "booking_export" then
    (bookingExportNormalizer wb hotelFk).map (fun r =>
      ⟨[(str "booking_export", r.bookingExport.map (fun _ => ()))],
        [], r.rowsSkipped, r.rowsCoerced⟩)
  else if template = str "events" then
    (eventsNormalizer wb hotelFk).map (fun r =>
      ⟨[(str "events_calendar", r.events.map (fun _ => ()))],
        [], r.rowsSkipped, r.rowsCoerced⟩)
  else .error (str "Unknown template: " ++ template)

/-- Rows reported inserted by the insert operations of a trace. -/
def insertedCount (trace : List StoreOp) : Nat :=
  (trace.map (fun op => match op with | .insertOp _ n none => n | _ => 0)).sum

/-- Rows reported failed by the insert operations of a trace. -/
def erroredCount (trace : List StoreOp) : Nat :=
  (trace.map (fun op => match op with | .insertOp _ n (some _) => n | _ => 0)).sum

/-- The payload of the first `import_runs` update issued in a trace. -/
def firstUpdatePayload (trace : List StoreOp) : Option UpdatePayload :=
  trace.findSome? (fun op => match op with | .updateOp p _ => some p | _ => none)

/-- The payloads of the terminal updates the store accepted (the updates the
run record actually received). -/
def appliedUpdates (trace : List StoreOp) : List UpdatePayload :=
  trace.filterMap (fun op => match op with | .updateOp p none => some p | _ => none)

/-- Whether a trace contains a competitor-set upsert. -/
def hasCompUpsert (trace : List StoreOp) : Bool :=
  trace.any (fun op => match op with | .compUpsertOp _ => true | _ => false)

/-! ### Trace bookkeeping lemmas for the orchestrator -/

/-- Whether a store operation is a batch insert. -/
def isInsertOp : StoreOp → Bool
  | .insertOp _ _ _ => true
  | _ => false

theorem insertedCount_append (l1 l2 : List StoreOp) :
    insertedCount (l1 ++ l2) = insertedCount l1 + insertedCount l2 := by
  simp [insertedCount]

theorem erroredCount_append (l1 l2 : List StoreOp) :
    erroredCount (l1 ++ l2) = erroredCount l1 + erroredCount l2 := by
  simp [erroredCount]

theorem appliedUpdates_append (l1 l2 : List StoreOp) :
    appliedUpdates (l1 ++ l2) = appliedUpdates l1 ++ appliedUpdates l2 := by
  simp [appliedUpdates]

theorem firstUpdatePayload_append (l1 l2 : List StoreOp) :
    firstUpdatePayload (l1 ++ l2) =
      (firstUpdatePayload l1).or (firstUpdatePayload l2) := by
  simp [firstUpdatePayload, List.findSome?_append]

theorem firstUpdatePayload_of_inserts (l : List StoreOp) (h : l.all isInsertOp = true) :
    firstUpdatePayload l = none := by
  induction l with
  | nil => rfl
  | cons op t ih =>
      simp only [List.all_cons, Bool.and_eq_true] at h
      cases op with
      | insertOp a b c => simpa [firstUpdatePayload] using ih h.2
      | compUpsertOp a => simp [isInsertOp] at h
      | updateOp a b => simp [isInsertOp] at h

theorem appliedUpdates_of_inserts (l : List StoreOp) (h : l.all isInsertOp = true) :
    appliedUpdates l = [] := by
  induction l with
  | nil => rfl
  | cons op t ih =>
      simp only [List.all_cons, Bool.and_eq_true] at h
      cases op with
      | insertOp a b c => simpa [appliedUpdates] using ih h.2
      | compUpsertOp a => simp [isInsertOp] at h
      | updateOp a b => simp [isInsertOp] at h

theorem hasCompUpsert_of_inserts (l : List StoreOp) (h : l.all isInsertOp = true) :
    hasCompUpsert l = false := by
  induction l with
  | nil => rfl
  | cons op t ih =>
      simp only [List.all_cons, Bool.and_eq_true] at h
      cases op with
      | insertOp a b c => simpa [hasCompUpsert] using ih h.2
      | compUpsertOp a => simp [isInsertOp] at h
      | updateOp a b => simp [isInsertOp] at h

/-- The batch-insert loop in closed form: the final counters, error list and
trace are those of the input plus one contribution per enumerated chunk,
failing chunks contributing their full length to `rowErrors` and their
prefixed store message to the error list, succeeding chunks their length to
`rowsInserted` — each chunk processed regardless of earlier failures. -/
theorem batchFold_closed {α : Type} (store : Store) (table : List Char)
    (l : List (Nat × List α)) :
    ∀ acc : ImportStats × List StoreOp,
      l.foldl (batchStep store table) acc =
        ({ rowsInserted := acc.1.rowsInserted +
            ((l.filter (fun p => (store.insertErr table p.1).isNone)).map
              (fun p => p.2.length)).sum
           rowsSkipped := acc.1.rowsSkipped
           rowsCoerced := acc.1.rowsCoerced
           rowErrors := acc.1.rowErrors +
            ((l.filter (fun p => (store.insertErr table p.1).isSome)).map
              (fun p => p.2.length)).sum
           errors := acc.1.errors ++ l.filterMap
            (fun p => (store.insertErr table p.1).map (fun e => table ++ str ": " ++ e)) },
         acc.2 ++ l.map (fun p => .insertOp table p.2.length (store.insertErr table p.1))) := by
  induction l with
  | nil =>
      intro acc
      obtain ⟨⟨ri, rs, rc, re, er⟩, tr⟩ := acc
      simp
  | cons p t ih =>
      intro acc
      obtain ⟨⟨ri, rs, rc, re, er⟩, tr⟩ := acc
      simp only [List.foldl_cons]
      rw [ih]
      rcases hp : store.insertErr table p.1 with _ | e <;>
        simp [batchStep, hp, Nat.add_assoc, List.append_assoc]

theorem batchInsert_closed {α : Type} (bs : Nat) (store : Store) (table : List Char)
    (rows : List α) (acc : ImportStats × List StoreOp) :
    batchInsert bs store table rows acc =
      ({ rowsInserted := acc.1.rowsInserted +
          (((chunksOf bs rows).enum.filter
              (fun p => (store.insertErr table p.1).isNone)).map (fun p => p.2.length)).sum
         rowsSkipped := acc.1.rowsSkipped
         rowsCoerced := acc.1.rowsCoerced
         rowErrors := acc.1.rowErrors +
          (((chunksOf bs rows).enum.filter
              (fun p => (store.insertErr table p.1).isSome)).map (fun p => p.2.length)).sum
         errors := acc.1.errors ++ (chunksOf bs rows).enum.filterMap
          (fun p => (store.insertErr table p.1).map (fun e => table ++ str ": " ++ e)) },
       acc.2 ++ (chunksOf bs rows).enum.map
        (fun p => .insertOp table p.2.length (store.insertErr table p.1))) :=
  batchFold_closed store table ((chunksOf bs rows).enum) acc

/-- The batching loop preserves the correspondence between the counters and
the trace, and only ever appends insert operations. -/
theorem batchFold_invariant {α : Type} (store : Store) (table : List Char)
    (l : List (Nat × List α)) (acc : ImportStats × List StoreOp)
    (h1 : acc.1.rowsInserted = insertedCount acc.2)
    (h2 : acc.1.rowErrors = erroredCount acc.2)
    (h3 : acc.2.all isInsertOp = true) :
    (l.foldl (batchStep store table) acc).1.rowsInserted =
        insertedCount (l.foldl (batchStep store table) acc).2 ∧
      (l.foldl (batchStep store table) acc).1.rowErrors =
        erroredCount (l.foldl (batchStep store table) acc).2 ∧
      (l.foldl (batchStep store table) acc).2.all isInsertOp = true ∧
      (l.foldl (batchStep store table) acc).1.rowsSkipped = acc.1.rowsSkipped ∧
      (l.foldl (batchStep store table) acc).1.rowsCoerced = acc.1.rowsCoerced := by
  rw [batchFold_closed]
  refine ⟨?_, ?_, ?_, rfl, rfl⟩
  · rw [h1, insertedCount_append]
    induction l with
    | nil => rfl
    | cons p t ih =>
        rcases hp : store.insertErr table p.1 with _ | e <;>
          simp [insertedCount, hp, ih] <;> simp [insertedCount] at ih <;> omega
  · rw [h2, erroredCount_append]
    induction l with
    | nil => rfl
    | cons p t ih =>
        rcases hp : store.insertErr table p.1 with _ | e <;>
          simp [erroredCount, hp, ih] <;> simp [erroredCount] at ih <;> omega
  · rw [List.all_append]
    simp only [h3, Bool.true_and]
    rw [List.all_eq_true]
    intro op hop
    simp only [List.mem_map] at hop
    obtain ⟨p, _, rfl⟩ := hop
    rfl

theorem insertedCount_nil : insertedCount [] = 0 := rfl

theorem erroredCount_nil : erroredCount [] = 0 := rfl

theorem insertedCount_updateOp (p : UpdatePayload) (e : Option (List Char)) (l : List StoreOp) :
    insertedCount (.updateOp p e :: l) = insertedCount l := by
  simp [insertedCount]

theorem erroredCount_updateOp (p : UpdatePayload) (e : Option (List Char)) (l : List StoreOp) :
    erroredCount (.updateOp p e :: l) = erroredCount l := by
  simp [erroredCount]

theorem insertedCount_compOp (c : List (List Char)) (l : List StoreOp) :
    insertedCount (.compUpsertOp c :: l) = insertedCount l := by
  simp [insertedCount]

theorem erroredCount_compOp (c : List (List Char)) (l : List StoreOp) :
    erroredCount (.compUpsertOp c :: l) = erroredCount l := by
  simp [erroredCount]

theorem firstUpdatePayload_updateOp (p : UpdatePayload) (e : Option (List Char))
    (l : List StoreOp) : firstUpdatePayload (.updateOp p e :: l) = some p := rfl

theorem appliedUpdates_updateOp_ok (p : UpdatePayload) (l : List StoreOp) :
    appliedUpdates (.updateOp p none :: l) = p :: appliedUpdates l := by
  simp [appliedUpdates]

theorem appliedUpdates_updateOp_err (p : UpdatePayload) (e : List Char) (l : List StoreOp) :
    appliedUpdates (.updateOp p (some e) :: l) = appliedUpdates l := by
  simp [appliedUpdates]

theorem appliedUpdates_compOp (c : List (List Char)) (l : List StoreOp) :
    appliedUpdates (.compUpsertOp c :: l) = appliedUpdates l := by
  simp [appliedUpdates]

theorem appliedUpdates_nil : appliedUpdates [] = [] := rfl

theorem firstUpdatePayload_compOp (c : List (List Char)) (l : List StoreOp) :
    firstUpdatePayload (.compUpsertOp c :: l) = firstUpdatePayload l := rfl

theorem hasCompUpsert_updateOp (p : UpdatePayload) (e : Option (List Char))
    (l : List StoreOp) : hasCompUpsert (.updateOp p e :: l) = hasCompUpsert l := by
  simp [hasCompUpsert]

theorem hasCompUpsert_nil : hasCompUpsert [] = false := rfl

theorem firstUpdatePayload_nil : firstUpdatePayload [] = none := rfl

/-- A trace with no applied updates followed by one accepted terminal update
closes the record exactly once, and that update is the first one. -/
theorem close_once_ok (l : List StoreOp) (h1 : appliedUpdates l = [])
    (h2 : firstUpdatePayload l = none) (p : UpdatePayload) :
    appliedUpdates (l ++ [StoreOp.updateOp p none]) = [p] ∧
      firstUpdatePayload (l ++ [StoreOp.updateOp p none]) = some p := by
  constructor
  · rw [appliedUpdates_append, h1]; rfl
  · rw [firstUpdatePayload_append, h2]; rfl

theorem hasCompUpsert_append (l1 l2 : List StoreOp) :
    hasCompUpsert (l1 ++ l2) = (hasCompUpsert l1 || hasCompUpsert l2) := by
  simp [hasCompUpsert]

/-- The batching phase of the success path (the fold of `batchInsert` over
the output collections) preserves: counters mirror the trace, the trace is
all inserts. -/
theorem collectionsFold_invariant {Row : Type} (bs : Nat) (store : Store)
    (cols : List (List Char × List Row)) :
    ∀ acc : ImportStats × List StoreOp,
      acc.1.rowsInserted = insertedCount acc.2 →
      acc.1.rowErrors = erroredCount acc.2 →
      acc.2.all isInsertOp = true →
      ((cols.foldl (fun a c => batchInsert bs store c.1 c.2 a) acc).1.rowsInserted =
          insertedCount (cols.foldl (fun a c => batchInsert bs store c.1 c.2 a) acc).2 ∧
        (cols.foldl (fun a c => batchInsert bs store c.1 c.2 a) acc).1.rowErrors =
          erroredCount (cols.foldl (fun a c => batchInsert bs store c.1 c.2 a) acc).2 ∧
        (cols.foldl (fun a c => batchInsert bs store c.1 c.2 a) acc).2.all isInsertOp = true) := by
  induction cols with
  | nil => intro acc h1 h2 h3; exact ⟨h1, h2, h3⟩
  | cons c t ih =>
      intro acc h1 h2 h3
      have h := batchFold_invariant store c.1 ((chunksOf bs c.2).enum) acc h1 h2 h3
      exact ih _ h.1 h.2.1 h.2.2.1

theorem chunksOfAux_flatten {α : Type} (n : Nat) (hn : 1 ≤ n) :
    ∀ (fuel : Nat) (xs : List α), xs.length ≤ fuel →
      (chunksOfAux n fuel xs).flatten = xs := by
  intro fuel
  induction fuel with
  | zero =>
      intro xs h
      cases xs with
      | nil => rfl
      | cons a t => simp at h
  | succ fuel ih =>
      intro xs h
      cases xs with
      | nil => rfl
      | cons a t =>
          have hstep : chunksOfAux n (fuel + 1) (a :: t) =
              List.take n (a :: t) :: chunksOfAux n fuel (List.drop n (a :: t)) := rfl
          rw [hstep, List.flatten_cons, ih (List.drop n (a :: t)) ?_, List.take_append_drop]
          have hd : (List.drop n (a :: t)).length = (a :: t).length - n := List.length_drop n _
          simp only [List.length_cons] at h hd
          omega

theorem chunksOfAux_mem_length {α : Type} (n : Nat) :
    ∀ (fuel : Nat) (xs : List α) (c : List α), c ∈ chunksOfAux n fuel xs → c.length ≤ n := by
  intro fuel
  induction fuel with
  | zero => intro xs c hc; cases xs <;> simp [chunksOfAux] at hc
  | succ fuel ih =>
      intro xs c hc
      cases xs with
      | nil => simp [chunksOfAux] at hc
      | cons a t =>
          have hstep : chunksOfAux n (fuel + 1) (a :: t) =
              List.take n (a :: t) :: chunksOfAux n fuel (List.drop n (a :: t)) := rfl
          rw [hstep, List.mem_cons] at hc
          rcases hc with rfl | hc
          · simp [List.length_take]
          · exact ih _ c hc

/-- The terminal update issued first by the success-path tail: its payload
carries the accumulated counters, the error-rate formula over them, and the
threshold-gated status — provided the entry counters mirror the entry trace
(which `collectionsFold_invariant` establishes for real runs). -/
theorem runOk_spec {Row : Type} (th : JNum) (store : Store) (out : NormOut Row)
    (stats0 : ImportStats) (tr0 : List StoreOp)
    (hi : stats0.rowsInserted = insertedCount tr0)
    (he : stats0.rowErrors = erroredCount tr0)
    (hall : tr0.all isInsertOp = true) :
    ∃ p : UpdatePayload,
      firstUpdatePayload (runOk th store out (stats0, tr0)).trace = some p ∧
      p.metaRowsInserted = some (insertedCount (runOk th store out (stats0, tr0)).trace) ∧
      p.metaRowErrors = some (erroredCount (runOk th store out (stats0, tr0)).trace) ∧
      p.metaErrorRate = some
        (errorRateOf (insertedCount (runOk th store out (stats0, tr0)).trace)
          (erroredCount (runOk th store out (stats0, tr0)).trace)) ∧
      p.status = (if JNum.blt th
          (errorRateOf (insertedCount (runOk th store out (stats0, tr0)).trace)
            (erroredCount (runOk th store out (stats0, tr0)).trace)) then str "failed"
        else str "success") := by
  have hfu0 : firstUpdatePayload tr0 = none := firstUpdatePayload_of_inserts tr0 hall
  simp only [runOk]
  rcases h0 : store.updateErr 0 with _ | e
  · cases hc : out.competitors.isEmpty <;>
      simp [hc, insertedCount_append, erroredCount_append, insertedCount_updateOp,
        erroredCount_updateOp, insertedCount_compOp, erroredCount_compOp,
        insertedCount_nil, erroredCount_nil, hi, he] <;>
      exact ⟨_, by rw [firstUpdatePayload_append, hfu0]; rfl, rfl, rfl, rfl, rfl⟩
  · rcases h1 : store.updateErr 1 with _ | e2 <;>
      cases hc : out.competitors.isEmpty <;>
        simp [hc, insertedCount_append, erroredCount_append, insertedCount_updateOp,
          erroredCount_updateOp, insertedCount_compOp, erroredCount_compOp,
          insertedCount_nil, erroredCount_nil, hi, he] <;>
        exact ⟨_, by rw [firstUpdatePayload_append, hfu0]; rfl, rfl, rfl, rfl, rfl⟩

/-- C3: at the end of every run that reaches the status computation (the
dispatch returned a normalizer result), the first terminal update issued
carries, in its metadata, exactly the rows inserted and the row errors
accumulated by this run's batch inserts, the error rate
`rowErrors / (rowsInserted + rowErrors)` over them (`0` when both are zero),
and its status is `failed` exactly when that rate exceeds the configured
threshold and `success` otherwise — regardless of which batches partially
failed. -/
theorem c3_error_rate_gates_status {Row : Type} (bs : Nat) (th : JNum) (store : Store)
    (out : NormOut Row) (_hbs : 1 ≤ bs) :
    ∃ p : UpdatePayload,
      firstUpdatePayload (run bs th store (.ok out)).trace = some p ∧
      p.metaRowsInserted = some (insertedCount (run bs th store (.ok out)).trace) ∧
      p.metaRowErrors = some (erroredCount (run bs th store (.ok out)).trace) ∧
      p.metaErrorRate = some
        (errorRateOf (insertedCount (run bs th store (.ok out)).trace)
          (erroredCount (run bs th store (.ok out)).trace)) ∧
      (p.status = str "failed" ↔
        JNum.blt th (errorRateOf (insertedCount (run bs th store (.ok out)).trace)
          (erroredCount (run bs th store (.ok out)).trace)) = true) ∧
      (p.status = str "success" ↔
        JNum.blt th (errorRateOf (insertedCount (run bs th store (.ok out)).trace)
          (erroredCount (run bs th store (.ok out)).trace)) = false) := by
  have hinv := collectionsFold_invariant bs store out.collections
    ((⟨0, 0, 0, 0, []⟩ : ImportStats), ([] : List StoreOp)) rfl rfl rfl
  have hrun : run bs th store (.ok out) = runOk th store out
      (out.collections.foldl (fun a c => batchInsert bs store c.1 c.2 a)
        ((⟨0, 0, 0, 0, []⟩ : ImportStats), ([] : List StoreOp))) := rfl
  rw [hrun] at *
  generalize hg : out.collections.foldl (fun a c => batchInsert bs store c.1 c.2 a)
      ((⟨0, 0, 0, 0, []⟩ : ImportStats), ([] : List StoreOp)) = ACC at hinv ⊢
  obtain ⟨stats0, tr0⟩ := ACC
  obtain ⟨hi, he, hall⟩ := hinv
  obtain ⟨p, h1, h2, h3, h4, h5⟩ := runOk_spec th store out stats0 tr0 hi he hall
  refine ⟨p, h1, h2, h3, h4, ?_, ?_⟩ <;> rw [h5] <;>
    rcases JNum.blt th (errorRateOf (insertedCount (runOk th store out (stats0, tr0)).trace)
      (erroredCount (runOk th store out (stats0, tr0)).trace)) <;>
    simp <;> decide

/-- A store accepting every operation. -/
def storeOkAll : Store := ⟨fun _ _ => none, fun _ => none, none⟩

/-- A tiny normalizer outcome: one collection with one row. -/
def normOutSmall : NormOut Unit := ⟨[(str "t", [()])], [], 0, 0⟩

/-- Witness for C3 at batch size 500, threshold 5/100, an all-accepting store
and a one-row collection. -/
theorem c3_error_rate_gates_status_witness :
    1 ≤ 500 ∧ ∃ p : UpdatePayload,
      firstUpdatePayload (run 500 ⟨5, 100⟩ storeOkAll (.ok normOutSmall)).trace = some p ∧
      p.metaRowsInserted = some (insertedCount (run 500 ⟨5, 100⟩ storeOkAll
        (.ok normOutSmall)).trace) ∧
      p.metaRowErrors = some (erroredCount (run 500 ⟨5, 100⟩ storeOkAll
        (.ok normOutSmall)).trace) ∧
      p.metaErrorRate = some
        (errorRateOf (insertedCount (run 500 ⟨5, 100⟩ storeOkAll (.ok normOutSmall)).trace)
          (erroredCount (run 500 ⟨5, 100⟩ storeOkAll (.ok normOutSmall)).trace)) ∧
      (p.status = str "failed" ↔
        JNum.blt ⟨5, 100⟩ (errorRateOf
          (insertedCount (run 500 ⟨5, 100⟩ storeOkAll (.ok normOutSmall)).trace)
          (erroredCount (run 500 ⟨5, 100⟩ storeOkAll (.ok normOutSmall)).trace)) = true) ∧
      (p.status = str "success" ↔
        JNum.blt ⟨5, 100⟩ (errorRateOf
          (insertedCount (run 500 ⟨5, 100⟩ storeOkAll (.ok normOutSmall)).trace)
          (erroredCount (run 500 ⟨5, 100⟩ storeOkAll (.ok normOutSmall)).trace)) = false) :=
  ⟨by decide, c3_error_rate_gates_status 500 ⟨5, 100⟩ storeOkAll normOutSmall (by decide)⟩

/-- A store that fails exactly the second batch of every table. -/
def storeFailsSecond : Store :=
  ⟨fun _ i => if i = 1 then some (str "boom") else none, fun _ => none, none⟩

/-- Spec scenario C: one collection of 1200 rows, batch size 500, second
batch failing, threshold the documented default 0.05. -/
def scenarioC : RunOutcome :=
  run 500 ⟨5, 100⟩ storeFailsSecond (.ok ⟨[(str "t", List.replicate 1200 ())], [], 0, 0⟩)

/-- C4: `batchInsert` partitions every row collection into consecutive
batches of at most the batch size (for a positive batch size, the batches
concatenate back to the rows); its loop, in closed form, adds exactly the
chunk length to `rowErrors` and appends the store's error text for each
failing batch while continuing with the remaining batches; and in the
concrete 1200-row scenario with batch size 500 and a failing middle batch
the run inserts 700 rows, records 500 row errors and error rate 500/1200,
and ends with status `failed` at threshold 0.05. -/
theorem c4_batch_partition_and_tolerance :
    (∀ (α : Type) (bs : Nat) (rows : List α), 1 ≤ bs →
      (chunksOf bs rows).flatten = rows ∧ ∀ c ∈ chunksOf bs rows, c.length ≤ bs) ∧
    (∀ (α : Type) (bs : Nat) (store : Store) (table : List Char) (rows : List α)
        (acc : ImportStats × List StoreOp),
      batchInsert bs store table rows acc =
        ({ rowsInserted := acc.1.rowsInserted +
            (((chunksOf bs rows).enum.filter
                (fun p => (store.insertErr table p.1).isNone)).map (fun p => p.2.length)).sum
           rowsSkipped := acc.1.rowsSkipped
           rowsCoerced := acc.1.rowsCoerced
           rowErrors := acc.1.rowErrors +
            (((chunksOf bs rows).enum.filter
                (fun p => (store.insertErr table p.1).isSome)).map (fun p => p.2.length)).sum
           errors := acc.1.errors ++ (chunksOf bs rows).enum.filterMap
            (fun p => (store.insertErr table p.1).map (fun e => table ++ str ": " ++ e)) },
         acc.2 ++ (chunksOf bs rows).enum.map
          (fun p => .insertOp table p.2.length (store.insertErr table p.1)))) ∧
    ((chunksOf 500 (List.replicate 1200 ())).map List.length = [500, 500, 200] ∧
      scenarioC.raised = none ∧
      firstUpdatePayload scenarioC.trace = some
        ⟨str "failed", true, some (str "t: boom"), some 700, some 0, some 0, some 500,
          some ⟨500, 1200⟩, [str "t: boom"]⟩) := by
  refine ⟨?_, ?_, ?_⟩
  · intro α bs rows hbs
    exact ⟨chunksOfAux_flatten bs hbs rows.length rows le_rfl,
      fun c hc => chunksOfAux_mem_length bs rows.length rows c hc⟩
  · intro α bs store table rows acc
    exact batchInsert_closed bs store table rows acc
  · exact ⟨by decide, by decide, by decide⟩

/-- Witness for C4's quantified components at batch size 500 and 1200 rows. -/
theorem c4_batch_partition_and_tolerance_witness :
    (chunksOf 500 (List.replicate 1200 (0 : Nat))).flatten = List.replicate 1200 0 :=
  (c4_batch_partition_and_tolerance.1 Nat 500 (List.replicate 1200 0) (by decide)).1

/-- A store whose `import_runs` updates always fail. -/
def storeUpdateDown : Store := ⟨fun _ _ => none, fun _ => some (str "db down"), none⟩

/-- C8 counterexample: when the normalizer throws `boom` but the store
rejects the terminal update, the run re-raises the update failure instead of
the original exception, and the run record receives no terminal update at
all — against the claimed "re-raises the exception" and "exactly one
terminal update on every exit path". -/
theorem c8_counterexample :
    (@run Unit 500 ⟨5, 100⟩ storeUpdateDown (.error (str "boom"))).raised =
        some (str "import_runs update failed: db down") ∧
      (@run Unit 500 ⟨5, 100⟩ storeUpdateDown (.error (str "boom"))).raised ≠
        some (str "boom") ∧
      appliedUpdates (@run Unit 500 ⟨5, 100⟩ storeUpdateDown (.error (str "boom"))).trace =
        [] := by
  decide

/-- C8 amended: every exception of steps 3-6 is caught exactly once at the
top level; when the store accepts the catch-path terminal update, the run
record receives exactly one terminal update — status `failed`, the exception
message, finish timestamp — and the original exception is re-raised. When
that update itself fails, the update error propagates instead and the record
receives no terminal update. On the success path the record receives exactly
one terminal update when the store accepts it; if it rejects it, the catch
retries once, and a successful retry still leaves exactly one received
terminal update (now `failed` with the update-failure message) while the
update failure is raised. -/
theorem c8_amended_single_close :
    (∀ (Row : Type) (bs : Nat) (th : JNum) (store : Store) (m : List Char),
      store.updateErr 0 = none →
        (@run Row bs th store (.error m)).raised = some m ∧
        appliedUpdates (@run Row bs th store (.error m)).trace = [failedPayload m]) ∧
    (∀ (Row : Type) (bs : Nat) (th : JNum) (store : Store) (m e : List Char),
      store.updateErr 0 = some e →
        (@run Row bs th store (.error m)).raised = some (updFailMsg e) ∧
        appliedUpdates (@run Row bs th store (.error m)).trace = []) ∧
    (∀ (Row : Type) (bs : Nat) (th : JNum) (store : Store) (out : NormOut Row),
      store.updateErr 0 = none →
        (run bs th store (.ok out)).raised = none ∧
        ∃ p, appliedUpdates (run bs th store (.ok out)).trace = [p] ∧
          firstUpdatePayload (run bs th store (.ok out)).trace = some p) ∧
    (∀ (Row : Type) (bs : Nat) (th : JNum) (store : Store) (out : NormOut Row) (e : List Char),
      store.updateErr 0 = some e → store.updateErr 1 = none →
        (run bs th store (.ok out)).raised = some (updFailMsg e) ∧
        appliedUpdates (run bs th store (.ok out)).trace = [failedPayload (updFailMsg e)]) ∧
    (∀ (Row : Type) (bs : Nat) (th : JNum) (store : Store) (out : NormOut Row)
        (e e2 : List Char),
      store.updateErr 0 = some e → store.updateErr 1 = some e2 →
        (run bs th store (.ok out)).raised = some (updFailMsg e2) ∧
        appliedUpdates (run bs th store (.ok out)).trace = []) := by
  refine ⟨?_, ?_, ?_, ?_, ?_⟩
  · intro Row bs th store m h0
    simp [run, h0, appliedUpdates_updateOp_ok, appliedUpdates_nil]
  · intro Row bs th store m e h0
    simp [run, h0, appliedUpdates_updateOp_err, appliedUpdates_nil]
  · intro Row bs th store out h0
    have hinv := collectionsFold_invariant bs store out.collections
      ((⟨0, 0, 0, 0, []⟩ : ImportStats), ([] : List StoreOp)) rfl rfl rfl
    have heq : run bs th store (.ok out) = runOk th store out
        (out.collections.foldl (fun a c => batchInsert bs store c.1 c.2 a)
          ((⟨0, 0, 0, 0, []⟩ : ImportStats), ([] : List StoreOp))) := rfl
    rw [heq] at *
    generalize hg : out.collections.foldl (fun a c => batchInsert bs store c.1 c.2 a)
        ((⟨0, 0, 0, 0, []⟩ : ImportStats), ([] : List StoreOp)) = ACC at hinv ⊢
    obtain ⟨stats0, tr0⟩ := ACC
    have happ : appliedUpdates tr0 = [] := appliedUpdates_of_inserts tr0 hinv.2.2
    have hfu : firstUpdatePayload tr0 = none := firstUpdatePayload_of_inserts tr0 hinv.2.2
    simp only [runOk, h0]
    have h1 : appliedUpdates (if out.competitors.isEmpty then tr0
        else tr0 ++ [StoreOp.compUpsertOp out.competitors]) = [] := by
      cases out.competitors.isEmpty <;>
        simp [appliedUpdates_append, appliedUpdates_compOp, appliedUpdates_nil, happ]
    have h2 : firstUpdatePayload (if out.competitors.isEmpty then tr0
        else tr0 ++ [StoreOp.compUpsertOp out.competitors]) = none := by
      cases out.competitors.isEmpty <;>
        simp [firstUpdatePayload_append, firstUpdatePayload_compOp,
          firstUpdatePayload_nil, hfu]
    exact ⟨by trivial, _, (close_once_ok _ h1 h2 _).1, (close_once_ok _ h1 h2 _).2⟩
  · intro Row bs th store out e h0 h1
    have hinv := collectionsFold_invariant bs store out.collections
      ((⟨0, 0, 0, 0, []⟩ : ImportStats), ([] : List StoreOp)) rfl rfl rfl
    have heq : run bs th store (.ok out) = runOk th store out
        (out.collections.foldl (fun a c => batchInsert bs store c.1 c.2 a)
          ((⟨0, 0, 0, 0, []⟩ : ImportStats), ([] : List StoreOp))) := rfl
    rw [heq] at *
    generalize hg : out.collections.foldl (fun a c => batchInsert bs store c.1 c.2 a)
        ((⟨0, 0, 0, 0, []⟩ : ImportStats), ([] : List StoreOp)) = ACC at hinv ⊢
    obtain ⟨stats0, tr0⟩ := ACC
    have happ : appliedUpdates tr0 = [] := appliedUpdates_of_inserts tr0 hinv.2.2
    simp only [runOk, h0, h1]
    cases hc : out.competitors.isEmpty <;>
      simp [hc, appliedUpdates_append, appliedUpdates_updateOp_ok,
        appliedUpdates_updateOp_err, appliedUpdates_compOp, appliedUpdates_nil, happ]
  · intro Row bs th store out e e2 h0 h1
    have hinv := collectionsFold_invariant bs store out.collections
      ((⟨0, 0, 0, 0, []⟩ : ImportStats), ([] : List StoreOp)) rfl rfl rfl
    have heq : run bs th store (.ok out) = runOk th store out
        (out.collections.foldl (fun a c => batchInsert bs store c.1 c.2 a)
          ((⟨0, 0, 0, 0, []⟩ : ImportStats), ([] : List StoreOp))) := rfl
    rw [heq] at *
    generalize hg : out.collections.foldl (fun a c => batchInsert bs store c.1 c.2 a)
        ((⟨0, 0, 0, 0, []⟩ : ImportStats), ([] : List StoreOp)) = ACC at hinv ⊢
    obtain ⟨stats0, tr0⟩ := ACC
    have happ : appliedUpdates tr0 = [] := appliedUpdates_of_inserts tr0 hinv.2.2
    simp only [runOk, h0, h1]
    cases hc : out.competitors.isEmpty <;>
      simp [hc, appliedUpdates_append, appliedUpdates_updateOp_ok,
        appliedUpdates_updateOp_err, appliedUpdates_compOp, appliedUpdates_nil, happ]

/-- Witness for C8's amended statement: the error path with an accepting
store closes the record once with the message and re-raises it. -/
theorem c8_amended_single_close_witness :
    (@run Unit 500 ⟨5, 100⟩ storeOkAll (.error (str "boom"))).raised = some (str "boom") ∧
      appliedUpdates (@run Unit 500 ⟨5, 100⟩ storeOkAll (.error (str "boom"))).trace =
        [failedPayload (str "boom")] :=
  c8_amended_single_close.1 Unit 500 ⟨5, 100⟩ storeOkAll (str "boom") rfl

/-- C9: the competitor-set upsert's result is invisible to the run — two
stores differing only in the competitor-upsert response produce identical
outcomes (same trace, same raised exception, same summary: no row errors, no
error message, no status change, no exception from it) — and when the
discovered competitor list is empty no competitor-set store call is issued
at all. -/
theorem c9_competitor_upsert_discarded :
    (∀ (Row : Type) (bs : Nat) (th : JNum)
        (ins : List Char → Nat → Option (List Char)) (upd : Nat → Option (List Char))
        (c1 c2 : Option (List Char)) (norm : Except (List Char) (NormOut Row)),
      run bs th ⟨ins, upd, c1⟩ norm = run bs th ⟨ins, upd, c2⟩ norm) ∧
    (∀ (Row : Type) (bs : Nat) (th : JNum) (store : Store) (out : NormOut Row),
      out.competitors = [] →
        hasCompUpsert (run bs th store (.ok out)).trace = false) := by
  constructor
  · intro Row bs th ins upd c1 c2 norm
    cases norm <;> rfl
  · intro Row bs th store out hc
    have hinv := collectionsFold_invariant bs store out.collections
      ((⟨0, 0, 0, 0, []⟩ : ImportStats), ([] : List StoreOp)) rfl rfl rfl
    have heq : run bs th store (.ok out) = runOk th store out
        ((out.collections.foldl (fun a c => batchInsert bs store c.1 c.2 a)
          ((⟨0, 0, 0, 0, []⟩ : ImportStats), ([] : List StoreOp))).1,
         (out.collections.foldl (fun a c => batchInsert bs store c.1 c.2 a)
          ((⟨0, 0, 0, 0, []⟩ : ImportStats), ([] : List StoreOp))).2) := rfl
    rw [heq] at *
    generalize hg : out.collections.foldl (fun a c => batchInsert bs store c.1 c.2 a)
        ((⟨0, 0, 0, 0, []⟩ : ImportStats), ([] : List StoreOp)) = ACC at hinv ⊢
    obtain ⟨stats0, tr0⟩ := ACC
    have hno : hasCompUpsert tr0 = false := hasCompUpsert_of_inserts tr0 hinv.2.2
    simp only [runOk, hc, List.isEmpty_nil]
    rcases h0 : store.updateErr 0 with _ | e
    · simp [hasCompUpsert_append, hno, hasCompUpsert_updateOp, hasCompUpsert_nil]
    · rcases h1 : store.updateErr 1 with _ | e2 <;>
        simp [hasCompUpsert_append, hno, hasCompUpsert_updateOp, hasCompUpsert_nil]

/-- Witness for C9 with an empty competitor list. -/
theorem c9_competitor_upsert_discarded_witness :
    hasCompUpsert (run 500 ⟨5, 100⟩ storeOkAll (.ok normOutSmall)).trace = false :=
  c9_competitor_upsert_discarded.2 Unit 500 ⟨5, 100⟩ storeOkAll normOutSmall rfl

/-- C1 (code bug): four of the five supported representations of the
calendar date 2026-01-16 — a native date at its UTC midnight, the
spreadsheet serial 46038 (above the 30000 sanity threshold), `DD/MM/YYYY`
text and ISO text — all normalize to that same date, and unparseable text
returns `null`; but the `DD/MM/YY` text form returns `null` instead of the
date: in `fromFormat(text,'dd/MM/yyyy') || fromFormat(text,'dd/MM/yy')` an
invalid Luxon DateTime object is still truthy, so the two-digit-year parse
— which, run on its own, accepts the input (penultimate conjunct) — is
unreachable dead code. -/
theorem c1_ddmmyy_branch_unreachable :
    normalizeDate (.vdate (20469 * 86400000)) = some ⟨2026, 1, 16⟩ ∧
    normalizeDate (.vnum ⟨46038, 1⟩) = some ⟨2026, 1, 16⟩ ∧
    normalizeDate (.vstr (str "16/01/2026")) = some ⟨2026, 1, 16⟩ ∧
    normalizeDate (.vstr (str "2026-01-16")) = some ⟨2026, 1, 16⟩ ∧
    normalizeDate (.vstr (str "pas une date")) = none ∧
    fromFormatDDMMYY (str "16/01/26") = some ⟨2026, 1, 16⟩ ∧
    normalizeDate (.vstr (str "16/01/26")) = none := by
  decide

/-- A planning worksheet: two header dates in row 1, one tariff data row. -/
def wsPlanTwoDates : Worksheet := ⟨[
  [.vnull, .vnull, .vnull, .vstr (str "16/01/2026"), .vstr (str "17/01/2026")],
  [.vstr (str "Double"), .vstr (str "BAR"), .vstr (str "Tarif"),
   .vstr (str "100"), .vstr (str "110")]]⟩

/-- The workbook holding `wsPlanTwoDates` as its `Planning` sheet. -/
def wbPlanTwoDates : Workbook := ⟨[(str "Planning", wsPlanTwoDates)]⟩

/-- C5 counterexample: the planning normalizer scans exactly one non-header
row and emits two rows (one per date column) with zero skips, so
`rowsEmitted + rowsSkipped = 2 ≠ 1 = totalNonHeaderRowsScanned`. -/
theorem c5_counterexample :
    planningNormalizer wbPlanTwoDates (str "H") = .ok
      ⟨[⟨str "H", ⟨2026, 1, 16⟩, str "Double", str "BAR", some ⟨100, 1⟩⟩,
        ⟨str "H", ⟨2026, 1, 17⟩, str "Double", str "BAR", some ⟨110, 1⟩⟩], [], 0, 0⟩ ∧
    wsPlanTwoDates.rowCount - 1 = 1 ∧ 2 + 0 ≠ 1 := by
  decide

/-- An overview (`Aperçu`) worksheet whose single data row (row 6) is wholly
blank. -/
def wsApercuBlankRow : Worksheet := ⟨[[], [], [], [],
  [.vnull, .vstr (str "Jour"), .vstr (str "Date"), .vstr (str "Votre hôtel le plus bas"),
   .vstr (str "Demande du marché")],
  []]⟩

/-- The workbook holding `wsApercuBlankRow` as its `Aperçu` sheet. -/
def wbApercuBlankRow : Workbook := ⟨[(str "Aperçu", wsApercuBlankRow)]⟩

/-- C6 counterexample: the booking-comparison normalizer scans the wholly
blank data row 6 (all sampled values blank across the header span, columns
2-5) yet leaves `rowsSkipped = 0` — the blank row is dropped without
incrementing the counter — while, as claimed, contributing no output row. -/
theorem c6_counterexample :
    wsApercuBlankRow.rowCount = 6 ∧
    (extractHeaders wsApercuBlankRow 5 2 false).2 = 5 ∧
    isRowEmpty (readRowValues wsApercuBlankRow 6 2 5) = true ∧
    bookingLowestNormalizer wbApercuBlankRow (str "H") 2026 =
      ⟨none, [], [], [], [], [], [], 0, 0⟩ := by
  decide

/-- An overview (`Aperçu`) worksheet whose data row has a valid date, valid
numeric cells, and the annotation token `note` in the `Jours fériés`
column. -/
def wsApercuNote : Worksheet := ⟨[[], [], [], [],
  [.vnull, .vstr (str "Jour"), .vstr (str "Date"), .vstr (str "Votre hôtel le plus bas"),
   .vstr (str "Demande du marché"), .vstr (str "Jours fériés")],
  [.vnull, .vstr (str "Lun"), .vstr (str "16/01/2026"), .vstr (str "100"), .vstr (str "5"),
   .vstr (str "note")]]⟩

/-- The workbook holding `wsApercuNote` as its `Aperçu` sheet. -/
def wbApercuNote : Workbook := ⟨[(str "Aperçu", wsApercuNote)]⟩

/-- C7 counterexample: in the overview sheet a scanned value (`note`, in the
`Jours fériés` column) matches the annotation pattern, yet the row is
emitted, not skipped: `shouldSkipRow` is consulted there with only the two
numeric columns as scanned values. -/
theorem c7_counterexample :
    isAnnotationText (str "note") = true ∧
    (readRowValues wsApercuNote 6 2 6).contains (.vstr (str "note")) = true ∧
    (bookingLowestNormalizer wbApercuNote (str "H") 2026).rowsSkipped = 0 ∧
    (bookingLowestNormalizer wbApercuNote (str "H") 2026).bookingApercu.length = 1 ∧
    ((bookingLowestNormalizer wbApercuNote (str "H") 2026).bookingApercu.map
      (fun row => (row.date, row.jours_feries))) =
        [(some ⟨2026, 1, 16⟩, some (str "note"))] := by
  decide

/-- Every scanned row moves the events accounting by exactly one: a blank
row into `rowsSkipped`, any other row into the output collection. -/
theorem eventsRowStep_count (ws : Worksheet) (hotelFk : List Char)
    (headers : List (List Char)) (sc ec : Nat) (s : EventsState) (r : Nat) :
    (eventsRowStep ws hotelFk headers sc ec s r).events.length +
      (eventsRowStep ws hotelFk headers sc ec s r).rowsSkipped =
    s.events.length + s.rowsSkipped + 1 := by
  simp only [eventsRowStep]
  split
  · simp [Nat.add_assoc]
  · split <;> split <;> simp <;> omega

/-- Every scanned row moves the booking-export accounting by exactly one. -/
theorem bookingExportRowStep_count (ws : Worksheet) (hotelFk : List Char)
    (headers : List (List Char)) (sc ec : Nat) (s : ExportState) (r : Nat) :
    (bookingExportRowStep ws hotelFk headers sc ec s r).bookingExport.length +
      (bookingExportRowStep ws hotelFk headers sc ec s r).rowsSkipped =
    s.bookingExport.length + s.rowsSkipped + 1 := by
  simp only [bookingExportRowStep]
  split
  · simp [Nat.add_assoc]
  · simp [List.length_append]
    omega

theorem eventsFold_count (ws : Worksheet) (hotelFk : List Char)
    (headers : List (List Char)) (sc ec : Nat) (l : List Nat) :
    ∀ s : EventsState,
      (l.foldl (eventsRowStep ws hotelFk headers sc ec) s).events.length +
        (l.foldl (eventsRowStep ws hotelFk headers sc ec) s).rowsSkipped =
      s.events.length + s.rowsSkipped + l.length := by
  induction l with
  | nil => intro s; simp
  | cons r t ih =>
      intro s
      rw [List.foldl_cons, ih, eventsRowStep_count]
      simp [List.length_cons]
      omega

theorem bookingExportFold_count (ws : Worksheet) (hotelFk : List Char)
    (headers : List (List Char)) (sc ec : Nat) (l : List Nat) :
    ∀ s : ExportState,
      (l.foldl (bookingExportRowStep ws hotelFk headers sc ec) s).bookingExport.length +
        (l.foldl (bookingExportRowStep ws hotelFk headers sc ec) s).rowsSkipped =
      s.bookingExport.length + s.rowsSkipped + l.length := by
  induction l with
  | nil => intro s; simp
  | cons r t ih =>
      intro s
      rw [List.foldl_cons, ih, bookingExportRowStep_count]
      simp [List.length_cons]
      omega

/-- C5 amended: the row accounting invariant
`rowsEmitted + rowsSkipped = totalNonHeaderRowsScanned` holds for the events
and booking-export normalizers; it fails for the planning normalizer (one
emitted row per date column, per-cell availability skips) and for the
booking-comparison normalizer (one emitted row per competitor column, blank
rows dropped uncounted) — see the counterexample. -/
theorem c5_amended_row_accounting :
    (∀ (wb : Workbook) (hotelFk : List Char) (ws : Worksheet),
      wb.firstWorksheet = some ws →
      ∃ res, eventsNormalizer wb hotelFk = .ok res ∧
        res.events.length + res.rowsSkipped = ws.rowCount - 1) ∧
    (∀ (wb : Workbook) (hotelFk : List Char) (ws : Worksheet),
      wb.firstWorksheet = some ws →
      ∃ res, bookingExportNormalizer wb hotelFk = .ok res ∧
        res.bookingExport.length + res.rowsSkipped = ws.rowCount - 1) := by
  constructor
  · intro wb hotelFk ws h
    unfold eventsNormalizer
    rw [h]
    refine ⟨_, rfl, ?_⟩
    have hc := eventsFold_count ws hotelFk
      ((readRowValues ws 1 1 (findLastColumn ws 1 1)).map (fun v => trimStr (jsStringOrEmpty v)))
      1 (findLastColumn ws 1 1) (List.range' (1 + 1) (ws.rowCount - 1)) ⟨[], 0, 0⟩
    simpa [List.length_range'] using hc
  · intro wb hotelFk ws h
    unfold bookingExportNormalizer
    rw [h]
    refine ⟨_, rfl, ?_⟩
    have hc := bookingExportFold_count ws hotelFk
      ((readRowValues ws 1 1 (findLastColumn ws 1 1)).map (fun v => trimStr (jsStringOrEmpty v)))
      1 (findLastColumn ws 1 1) (List.range' (1 + 1) (ws.rowCount - 1)) ⟨[], 0, 0⟩
    simpa [List.length_range'] using hc

/-- A small events worksheet: header row, one data row, one blank row. -/
def wsEventsSmall : Worksheet := ⟨[
  [.vstr (str "Événement"), .vstr (str "Début"), .vstr (str "Fin")],
  [.vstr (str "Salon"), .vstr (str "16/01/2026"), .vstr (str "17/01/2026")],
  []]⟩

/-- The workbook holding `wsEventsSmall` as its only sheet. -/
def wbEventsSmall : Workbook := ⟨[(str "Events", wsEventsSmall)]⟩

/-- Witness for C5's amended statement on `wbEventsSmall`. -/
theorem c5_amended_row_accounting_witness :
    ∃ res, eventsNormalizer wbEventsSmall (str "H") = .ok res ∧
      res.events.length + res.rowsSkipped = wsEventsSmall.rowCount - 1 :=
  c5_amended_row_accounting.1 wbEventsSmall (str "H") wsEventsSmall rfl

/-- C6 amended: a wholly blank scanned data row contributes no row to any
output collection in any normalizer; it increments `rowsSkipped` in the
planning, events and booking-export normalizers (first three conjuncts:
the row step is exactly the skip-counter bump), but in the three row loops
of the booking-comparison normalizer it is dropped without touching the
state at all (last three conjuncts). -/
theorem c6_amended_blank_rows :
    (∀ (ws : Worksheet) (hotelFk : List Char) (dates : List (Option Ymd)) (sc ec : Nat)
        (s : PlanState) (r : Nat),
      (isRowEmpty [cellToValue (ws.getCell r 1), cellToValue (ws.getCell r 2),
          cellToValue (ws.getCell r 3)] &&
        isRowEmpty (readRowValues ws r sc ec)) = true →
      planningRowStep ws hotelFk dates sc ec s r =
        { s with rowsSkipped := s.rowsSkipped + 1 }) ∧
    (∀ (ws : Worksheet) (hotelFk : List Char) (headers : List (List Char)) (sc ec : Nat)
        (s : EventsState) (r : Nat),
      isRowEmpty (readRowValues ws r sc ec) = true →
      eventsRowStep ws hotelFk headers sc ec s r =
        { s with rowsSkipped := s.rowsSkipped + 1 }) ∧
    (∀ (ws : Worksheet) (hotelFk : List Char) (headers : List (List Char)) (sc ec : Nat)
        (s : ExportState) (r : Nat),
      isRowEmpty (readRowValues ws r sc ec) = true →
      bookingExportRowStep ws hotelFk headers sc ec s r =
        { s with rowsSkipped := s.rowsSkipped + 1 }) ∧
    (∀ (ws : Worksheet) (hotelFk : List Char) (dmaj : Option Ymdhm)
        (headers : List (List Char)) (sc ec : Nat) (s : BLState) (r : Nat),
      isRowEmpty (readRowValues ws r sc ec) = true →
      apercuRowStep ws hotelFk dmaj headers sc ec s r = s) ∧
    (∀ (ws : Worksheet) (hotelFk : List Char) (dmaj : Option Ymdhm)
        (headers : List (List Char)) (sc ec : Nat) (s : BLState) (r : Nat),
      isRowEmpty (readRowValues ws r sc ec) = true →
      tarifsRowStep ws hotelFk dmaj headers sc ec s r = s) ∧
    (∀ (ws : Worksheet) (hotelFk : List Char) (dmaj : Option Ymdhm) (horizon : List Char)
        (rHeaders : List (List Char)) (sc ec : Nat) (s : BLState) (r : Nat),
      isRowEmpty (readRowValues ws r sc ec) = true →
      vsRowStep ws hotelFk dmaj horizon rHeaders sc ec s r = s) := by
  refine ⟨?_, ?_, ?_, ?_, ?_, ?_⟩
  · intro ws hotelFk dates sc ec s r h
    simp [planningRowStep, h]
  · intro ws hotelFk headers sc ec s r h
    simp [eventsRowStep, h]
  · intro ws hotelFk headers sc ec s r h
    simp [bookingExportRowStep, h]
  · intro ws hotelFk dmaj headers sc ec s r h
    simp [apercuRowStep, h]
  · intro ws hotelFk dmaj headers sc ec s r h
    simp [tarifsRowStep, h]
  · intro ws hotelFk dmaj horizon rHeaders sc ec s r h
    simp [vsRowStep, h]

/-- Witness for C6's amended statement: a blank row bumps the events
counter, and leaves the booking-comparison state unchanged. -/
theorem c6_amended_blank_rows_witness :
    eventsRowStep wsEventsSmall (str "H") [] 1 3 ⟨[], 0, 0⟩ 3 = ⟨[], 1, 0⟩ ∧
      apercuRowStep wsApercuBlankRow (str "H") none [] 2 5 ⟨[], [], [], [], [], [], 0, 0⟩ 6 =
        ⟨[], [], [], [], [], [], 0, 0⟩ :=
  ⟨c6_amended_blank_rows.2.1 wsEventsSmall (str "H") [] 1 3 ⟨[], 0, 0⟩ 3 (by decide),
    c6_amended_blank_rows.2.2.2.1 wsApercuBlankRow (str "H") none [] 2 5
      ⟨[], [], [], [], [], [], 0, 0⟩ 6 (by decide)⟩

/-- C7 amended: in the market-rate (`Tarifs`) and versus row loops, a
non-blank row any of whose row-map values matches the annotation pattern is
skipped and counted, no matter what the date cell holds; in the overview
(`Aperçu`) loop the same holds but only the values of the two numeric
columns `Votre hôtel le plus bas` and `Demande du marché` are tested — an
annotation anywhere else is emitted (see the counterexample). -/
theorem c7_amended_annotation_scope :
    (∀ (ws : Worksheet) (hotelFk : List Char) (dmaj : Option Ymdhm)
        (headers : List (List Char)) (sc ec : Nat) (s : BLState) (r : Nat),
      isRowEmpty (readRowValues ws r sc ec) = false →
      (objValues (rowToObject headers (readRowValues ws r sc ec))).any isAnnotationCell =
        true →
      tarifsRowStep ws hotelFk dmaj headers sc ec s r =
        { s with rowsSkipped := s.rowsSkipped + 1 }) ∧
    (∀ (ws : Worksheet) (hotelFk : List Char) (dmaj : Option Ymdhm) (horizon : List Char)
        (rHeaders : List (List Char)) (sc ec : Nat) (s : BLState) (r : Nat),
      isRowEmpty (readRowValues ws r sc ec) = false →
      (objValues (rowToObject rHeaders (readRowValues ws r sc ec))).any isAnnotationCell =
        true →
      vsRowStep ws hotelFk dmaj horizon rHeaders sc ec s r =
        { s with rowsSkipped := s.rowsSkipped + 1 }) ∧
    (∀ (ws : Worksheet) (hotelFk : List Char) (dmaj : Option Ymdhm)
        (headers : List (List Char)) (sc ec : Nat) (s : BLState) (r : Nat),
      isRowEmpty (readRowValues ws r sc ec) = false →
      ([str "Votre hôtel le plus bas", str "Demande du marché"].map
        (fun k => (objGet (rowToObject headers (readRowValues ws r sc ec)) k).getD
          .vnull)).any isAnnotationCell = true →
      apercuRowStep ws hotelFk dmaj headers sc ec s r =
        { s with rowsSkipped := s.rowsSkipped + 1 }) := by
  refine ⟨?_, ?_, ?_⟩
  · intro ws hotelFk dmaj headers sc ec s r hemp hann
    simp [tarifsRowStep, hemp, shouldSkipRow, hann]
  · intro ws hotelFk dmaj horizon rHeaders sc ec s r hemp hann
    simp [vsRowStep, hemp, shouldSkipRow, hann]
  · intro ws hotelFk dmaj headers sc ec s r hemp hann
    have hskip : shouldSkipRow
        ((objGet (rowToObject headers (readRowValues ws r sc ec)) (str "Date")).getD .vnull)
        ([str "Votre hôtel le plus bas", str "Demande du marché"].map
          (fun k => (objGet (rowToObject headers (readRowValues ws r sc ec)) k).getD
            .vnull)) = true := by
      simp only [shouldSkipRow, Bool.or_eq_true]
      right
      exact hann
    simp only [apercuRowStep]
    rw [if_neg (by simp [hemp]), if_pos hskip]

/-- A market-rate (`Tarifs`) worksheet whose data row carries the annotation
token `LOS 2` in a competitor column. -/
def wsTarifsLos : Worksheet := ⟨[[], [], [], [],
  [.vnull, .vstr (str "Jour"), .vstr (str "Date"), .vstr (str "Demande du marché"),
   .vstr (str "Hotel Y")],
  [.vnull, .vstr (str "Lun"), .vstr (str "16/01/2026"), .vstr (str "5"),
   .vstr (str "LOS 2")]]⟩

/-- Witness for C7's amended statement: the `LOS 2` row in the market-rate
loop is skipped and counted, leaving no output. -/
theorem c7_amended_annotation_scope_witness :
    tarifsRowStep wsTarifsLos (str "H") none
      [str "Jour", str "Date", str "Demande du marché", str "Hotel Y"] 2 5
      ⟨[], [], [], [], [], [], 0, 0⟩ 6 = ⟨[], [], [], [], [], [], 1, 0⟩ :=
  c7_amended_annotation_scope.1 wsTarifsLos (str "H") none
    [str "Jour", str "Date", str "Demande du marché", str "Hotel Y"] 2 5
    ⟨[], [], [], [], [], [], 0, 0⟩ 6 (by decide) (by decide)

/-- Under a metric that does not match `left for sale` and does match
`price` or `tarif`, the planning cell loop appends exactly one tariff row
per cell whose header date parsed — including blank cells — and changes
nothing else. -/
theorem planningCellFold_price (hotelFk roomType : List Char)
    (plan : Option (List Char)) (metric : List Char) (dates : List (Option Ymd))
    (hlfs : strHas metric (str "left for sale") = false)
    (hpt : (strHas metric (str "price") || strHas metric (str "tarif")) = true) :
    ∀ (l : List (Nat × CellValue)) (s : PlanState),
      l.foldl (planningCellStep hotelFk roomType plan metric dates) s =
        { s with planningTarifs := s.planningTarifs ++
            l.filterMap (fun p => (dates.getD p.1 none).map (fun date =>
              (⟨hotelFk, date, roomType, plan.getD [], parseNumeric p.2⟩ :
                PlanningTarifRow))) } := by
  intro l
  induction l with
  | nil =>
      intro s
      obtain ⟨a, b, c, d, e⟩ := s
      simp
  | cons p t ih =>
      intro s
      rw [List.foldl_cons, ih]
      rcases hd : dates[p.1]? with _ | (_ | date)
      · simp [planningCellStep, List.getD_eq_getElem?_getD, hd]
      · simp [planningCellStep, List.getD_eq_getElem?_getD, hd]
      · simp [planningCellStep, List.getD_eq_getElem?_getD, hd, hlfs, hpt, List.append_assoc]

/-- C10: in the planning normalizer a blank cell is skipped only in the
availability branch. For every row that is not wholly blank, whose room
type resolves, and whose metric label matches `price` or `tarif` (and not
`left for sale`), the row step appends exactly one tariff row per date
column with a parseable header date — also for blank cells, with
`tarif = parseNumeric cell` (that is, `null` for a blank cell) and with
`plan_tarifaire` the trimmed plan cell or `''` when the plan cell is blank
— and the availability collection, `rowsSkipped` and `rowsCoerced` are
untouched. -/
theorem c10_blank_price_cells_emitted (ws : Worksheet) (hotelFk : List Char)
    (dates : List (Option Ymd)) (sc ec : Nat) (s : PlanState) (r : Nat)
    (roomType : List Char)
    (hne : (isRowEmpty [cellToValue (ws.getCell r 1), cellToValue (ws.getCell r 2),
        cellToValue (ws.getCell r 3)] &&
      isRowEmpty (readRowValues ws r sc ec)) = false)
    (hrt : planningResolvedRoom ws r s.currentRoomType = some roomType)
    (hlfs : strHas (planningMetric ws r) (str "left for sale") = false)
    (hpt : (strHas (planningMetric ws r) (str "price") ||
      strHas (planningMetric ws r) (str "tarif")) = true) :
    planningRowStep ws hotelFk dates sc ec s r =
      { s with
          currentRoomType := some roomType
          planningTarifs := s.planningTarifs ++
            (readRowValues ws r sc ec).enum.filterMap (fun p =>
              (dates.getD p.1 none).map (fun date =>
                (⟨hotelFk, date, roomType, (planningPlan ws r).getD [],
                  parseNumeric p.2⟩ : PlanningTarifRow))) } := by
  simp only [planningRowStep]
  rw [if_neg (by simp [hne]), hrt]
  simp [planningCellFold_price hotelFk roomType (planningPlan ws r) (planningMetric ws r)
    dates hlfs hpt]

/-- A planning worksheet with one header date and a price row whose date
cell and plan cell are blank. -/
def wsPlanBlankPrice : Worksheet := ⟨[
  [.vnull, .vnull, .vnull, .vstr (str "16/01/2026")],
  [.vstr (str "Double"), .vnull, .vstr (str "Price"), .vnull]]⟩

/-- Witness for C10: on `wsPlanBlankPrice` the blank price cell still emits
a tariff row with `tarif = null` and `plan_tarifaire = ''`, nothing skipped
or coerced. -/
theorem c10_blank_price_cells_emitted_witness :
    planningRowStep wsPlanBlankPrice (str "H") [some ⟨2026, 1, 16⟩] 4 4
        ⟨[], [], 0, 0, none⟩ 2 =
      { (⟨[], [], 0, 0, none⟩ : PlanState) with
          currentRoomType := some (str "Double")
          planningTarifs := ([] : List PlanningTarifRow) ++
            (readRowValues wsPlanBlankPrice 2 4 4).enum.filterMap (fun p =>
              (([some ⟨2026, 1, 16⟩] : List (Option Ymd)).getD p.1 none).map (fun date =>
                (⟨str "H", date, str "Double", (planningPlan wsPlanBlankPrice 2).getD [],
                  parseNumeric p.2⟩ : PlanningTarifRow))) } ∧
    planningRowStep wsPlanBlankPrice (str "H") [some ⟨2026, 1, 16⟩] 4 4
        ⟨[], [], 0, 0, none⟩ 2 =
      ⟨[⟨str "H", ⟨2026, 1, 16⟩, str "Double", [], none⟩], [], 0, 0,
        some (str "Double")⟩ :=
  ⟨c10_blank_price_cells_emitted wsPlanBlankPrice (str "H") [some ⟨2026, 1, 16⟩] 4 4
      ⟨[], [], 0, 0, none⟩ 2 (str "Double") (by decide) (by decide) (by decide) (by decide),
    by decide⟩

/-! ### Character-class and separator lemmas for `parseNumeric` (C2) -/

/-- A decimal digit is not a whitespace character. -/
theorem digit_not_ws {c : Char} (hc : c.isDigit = true) : isWsChar c = false := by
  by_contra hne
  rw [Bool.not_eq_false] at hne
  simp only [isWsChar, Bool.or_eq_true, decide_eq_true_eq] at hne
  rcases hne with (((((rfl | rfl) | rfl) | rfl) | rfl) | rfl) | rfl <;>
    exact absurd hc (by decide)

/-- A decimal digit is none of the separator characters. -/
theorem digit_ne_sep {c : Char} (hc : c.isDigit = true) :
    c ≠ ',' ∧ c ≠ '.' ∧ c ≠ '-' ∧ c ≠ ' ' := by
  refine ⟨?_, ?_, ?_, ?_⟩ <;> (rintro rfl; exact absurd hc (by decide))

/-- The no-break-space substitution is the identity on NBSP-free text. -/
theorem map_nbsp_eq_self {l : List Char} (h : ∀ c ∈ l, c ≠ ' ') :
    l.map (fun c => if c = ' ' then ' ' else c) = l := by
  induction l with
  | nil => rfl
  | cons x t ih =>
      rw [List.map_cons, if_neg (h x (List.mem_cons_self x t)),
        ih (fun c hc => h c (List.mem_cons_of_mem x hc))]

/-- `dropWhile` is the identity when no element satisfies the predicate. -/
theorem dropWhile_eq_self_of_all {p : Char → Bool} {l : List Char}
    (h : ∀ c ∈ l, p c = false) : l.dropWhile p = l := by
  cases l with
  | nil => rfl
  | cons x t =>
      rw [List.dropWhile_cons, if_neg (by simp [h x (List.mem_cons_self x t)])]

/-- `trim` is the identity on whitespace-free text. -/
theorem trimStr_eq_self {l : List Char} (h : ∀ c ∈ l, isWsChar c = false) :
    trimStr l = l := by
  unfold trimStr
  rw [dropWhile_eq_self_of_all h,
    dropWhile_eq_self_of_all (fun c hc => h c (List.mem_reverse.mp hc)),
    List.reverse_reverse]

/-- `String.includes` holds at a member. -/
theorem contains_eq_true_of_mem {l : List Char} {c : Char} (h : c ∈ l) :
    l.contains c = true := List.elem_iff.mpr h

/-- `String.includes` fails at a non-member. -/
theorem contains_eq_false_of_not_mem {l : List Char} {c : Char} (h : c ∉ l) :
    l.contains c = false :=
  Bool.eq_false_iff.mpr (fun hh => h (List.elem_iff.mp hh))

/-- `replace` with a one-character pattern rewrites the first occurrence. -/
theorem replaceFirstChar_append {a b : List Char} {x y : Char}
    (h : ∀ c ∈ a, c ≠ x) : replaceFirstChar (a ++ x :: b) x y = a ++ y :: b := by
  induction a with
  | nil => simp [replaceFirstChar]
  | cons d t ih =>
      rw [List.cons_append, replaceFirstChar, if_neg (h d (List.mem_cons_self d t)),
        ih (fun c hc => h c (List.mem_cons_of_mem d hc)), List.cons_append]

/-- `takeWhile` collects exactly an all-true front segment. -/
theorem takeWhile_append_of_all {p : Char → Bool} {a b : List Char} {x : Char}
    (ha : ∀ c ∈ a, p c = true) (hx : p x = false) :
    (a ++ x :: b).takeWhile p = a := by
  induction a with
  | nil => simp [List.takeWhile_cons, hx]
  | cons d t ih =>
      rw [List.cons_append, List.takeWhile_cons, if_pos (ha d (List.mem_cons_self d t)),
        ih (fun c hc => ha c (List.mem_cons_of_mem d hc))]

/-- `dropWhile` drops exactly an all-true front segment. -/
theorem dropWhile_append_of_all {p : Char → Bool} {a b : List Char} {x : Char}
    (ha : ∀ c ∈ a, p c = true) (hx : p x = false) :
    (a ++ x :: b).dropWhile p = x :: b := by
  induction a with
  | nil => simp [List.dropWhile_cons, hx]
  | cons d t ih =>
      rw [List.cons_append, List.dropWhile_cons, if_pos (ha d (List.mem_cons_self d t)),
        ih (fun c hc => ha c (List.mem_cons_of_mem d hc))]

/-- `lastIndexOf x` on `u ++ x :: v` is `u.length` when `v` avoids `x`. -/
theorem lastIndexOfChar_append_last {u v : List Char} {x : Char}
    (hv : ∀ c ∈ v, c ≠ x) : lastIndexOfChar (u ++ x :: v) x = u.length := by
  have hnone : List.findIdx? (fun y => y = x) v.reverse = none :=
    List.findIdx?_eq_none_iff.mpr (fun c hc => by
      simp [hv c (List.mem_reverse.mp hc)])
  have hrev : (u ++ x :: v).reverse = v.reverse ++ x :: u.reverse := by simp
  rw [lastIndexOfChar, hrev, List.findIdx?_append, hnone]
  simp [List.findIdx?_cons, List.length_append]
  omega

/-- `lastIndexOf c` ignores a trailing `x :: v` segment avoiding `c`. -/
theorem lastIndexOfChar_append_other {u v : List Char} {x c : Char}
    (hv : ∀ d ∈ v, d ≠ c) (hx : x ≠ c) :
    lastIndexOfChar (u ++ x :: v) c = lastIndexOfChar u c := by
  have hnone : List.findIdx? (fun y => y = c) v.reverse = none :=
    List.findIdx?_eq_none_iff.mpr (fun d hd => by
      simp [hv d (List.mem_reverse.mp hd)])
  have hrev : (u ++ x :: v).reverse = v.reverse ++ x :: u.reverse := by simp
  rw [lastIndexOfChar, lastIndexOfChar, hrev, List.findIdx?_append, hnone]
  rcases hfi : List.findIdx? (fun y => y = c) u.reverse with _ | i
  · simp [List.findIdx?_cons, hx, hfi]
  · simp [List.findIdx?_cons, hx, hfi, List.length_append]
    omega

/-- `lastIndexOf` is always below the length. -/
theorem lastIndexOfChar_lt_length (u : List Char) (c : Char) :
    lastIndexOfChar u c < u.length := by
  rw [lastIndexOfChar]
  rcases List.findIdx? (fun y => y = c) u.reverse with _ | i
  · simp
    omega
  · simp
    omega

/-- `Number` on an optional-integer-part, dot, digits string yields the
denoted decimal (nonnegative branch). -/
theorem jsNumberNonNeg_decimal {a b : List Char}
    (ha : ∀ c ∈ a, c.isDigit = true) (hb : ∀ c ∈ b, c.isDigit = true)
    (hne : a ≠ [] ∨ b ≠ []) :
    jsNumberNonNeg (a ++ '.' :: b) = some (decimalVal a b) := by
  have hdot : ('.' : Char).isDigit = false := by decide
  have hguard : (decide (a = []) && decide (b = [])) = false := by
    rcases hne with h | h <;> simp [h]
  simp only [jsNumberNonNeg, takeWhile_append_of_all ha hdot,
    dropWhile_append_of_all ha hdot]
  simp [List.all_eq_true.mpr hb, hguard]

/-- `Number` on a digits-dot-digits string yields the denoted decimal. -/
theorem jsNumber_decimal {a b : List Char}
    (ha : ∀ c ∈ a, c.isDigit = true) (hb : ∀ c ∈ b, c.isDigit = true)
    (hne : a ≠ [] ∨ b ≠ []) :
    jsNumber (a ++ '.' :: b) = some (decimalVal a b) := by
  cases a with
  | nil =>
      rw [List.nil_append, jsNumber, if_neg (by decide)]
      exact jsNumberNonNeg_decimal ha hb hne
  | cons d t =>
      rw [List.cons_append, jsNumber,
        if_neg (digit_ne_sep (ha d (List.mem_cons_self d t))).2.2.1,
        ← List.cons_append]
      exact jsNumberNonNeg_decimal ha hb hne

/-- A join `a ++ '.' :: b` of digit runs is none of the degenerate forms
rejected before the `Number` conversion. -/
theorem decimal_join_not_degenerate {a b : List Char}
    (ha : ∀ c ∈ a, c.isDigit = true) (hne : a ≠ [] ∨ b ≠ []) :
    a ++ '.' :: b ≠ [] ∧ a ++ '.' :: b ≠ ['-'] ∧
    a ++ '.' :: b ≠ ['.'] ∧ a ++ '.' :: b ≠ ['-', '.'] := by
  refine ⟨by simp, ?_, ?_, ?_⟩
  · intro h
    have hmem : ('.' : Char) ∈ a ++ '.' :: b := by simp
    rw [h] at hmem
    simp at hmem
  · intro h
    rcases a with _ | ⟨d, t⟩
    · rw [List.nil_append] at h
      have hb0 : b = [] := by simpa using h
      rcases hne with h' | h'
      · exact h' rfl
      · exact h' hb0
    · rw [List.cons_append] at h
      rcases List.cons.inj h with ⟨_, ht⟩
      exact absurd ht (by simp)
  · intro h
    rcases a with _ | ⟨d, t⟩
    · rw [List.nil_append] at h
      rcases List.cons.inj h with ⟨hd, _⟩
      exact absurd hd (by decide)
    · rw [List.cons_append] at h
      rcases List.cons.inj h with ⟨hd, _⟩
      have := ha d (List.mem_cons_self d t)
      rw [hd] at this
      exact absurd this (by decide)

/-- With a single comma and no dot, `parseNumeric` reads the comma as the
decimal point. -/
theorem parseNumeric_comma_only (a b : List Char)
    (ha : ∀ c ∈ a, c.isDigit = true) (hb : ∀ c ∈ b, c.isDigit = true)
    (hne : a ≠ [] ∨ b ≠ []) :
    parseNumeric (.vstr (a ++ ',' :: b)) = some (decimalVal a b) := by
  have hmem : ∀ c ∈ a ++ ',' :: b, c.isDigit = true ∨ c = ',' := by
    intro c hc
    rw [List.mem_append, List.mem_cons] at hc
    rcases hc with h | h | h
    · exact Or.inl (ha c h)
    · exact Or.inr h
    · exact Or.inl (hb c h)
  have hws : ∀ c ∈ a ++ ',' :: b, isWsChar c = false := by
    intro c hc
    rcases hmem c hc with h | h
    · exact digit_not_ws h
    · rw [h]; decide
  have hnb : ∀ c ∈ a ++ ',' :: b, c ≠ ' ' := by
    intro c hc hq
    have := hws c hc
    rw [hq] at this
    exact absurd this (by decide)
  have hsne : a ++ ',' :: b ≠ [] := by simp
  have hdotmem : ('.' : Char) ∉ a ++ ',' :: b := by
    intro hc
    rcases hmem '.' hc with h | h
    · exact absurd h (by decide)
    · exact absurd h (by decide)
  have hcomma : (a ++ ',' :: b).contains ',' = true :=
    contains_eq_true_of_mem (by simp)
  have hdotc : (a ++ ',' :: b).contains '.' = false :=
    contains_eq_false_of_not_mem hdotmem
  have hrepl : replaceFirstChar (a ++ ',' :: b) ',' '.' = a ++ '.' :: b :=
    replaceFirstChar_append (fun c hc => (digit_ne_sep (ha c hc)).1)
  have hfilter :
      (a ++ '.' :: b).filter (fun c => c.isDigit || c = '.' || c = '-') =
        a ++ '.' :: b := by
    apply List.filter_eq_self.mpr
    intro c hc
    rw [List.mem_append, List.mem_cons] at hc
    rcases hc with h | h | h
    · simp [ha c h]
    · simp [h]
    · simp [hb c h]
  obtain ⟨hg1, hg2, hg3, hg4⟩ := decimal_join_not_degenerate ha hne
  have hkeep : (a ++ ',' :: b).filter (fun c => !isWsChar c) = a ++ ',' :: b :=
    List.filter_eq_self.mpr (fun c hc => by simp [hws c hc])
  have hstep : parseNumeric (.vstr (a ++ ',' :: b)) = jsNumber (a ++ '.' :: b) := by
    simp only [parseNumeric, jsToString]
    rw [map_nbsp_eq_self hnb, trimStr_eq_self hws, if_neg hsne, hkeep, hcomma, hdotc]
    simp only [Bool.and_false, Bool.false_eq_true, if_false, if_true]
    rw [hrepl, hfilter, if_neg (by simp [hg1, hg2, hg3, hg4])]
  rw [hstep]
  exact jsNumber_decimal ha hb hne

/-- Mixed separators with the dot occurring last: every comma is stripped as
grouping and the dot is the decimal point. -/
theorem parseNumeric_dot_last (a b : List Char)
    (ha : ∀ c ∈ a, c.isDigit = true ∨ c = ',') (hca : ',' ∈ a)
    (hb : ∀ c ∈ b, c.isDigit = true)
    (hne : a.filter (fun c => c ≠ ',') ≠ [] ∨ b ≠ []) :
    parseNumeric (.vstr (a ++ '.' :: b)) =
      some (decimalVal (a.filter (fun c => c ≠ ',')) b) := by
  have hws : ∀ c ∈ a ++ '.' :: b, isWsChar c = false := by
    intro c hc
    rw [List.mem_append, List.mem_cons] at hc
    rcases hc with h | h | h
    · rcases ha c h with h' | h'
      · exact digit_not_ws h'
      · rw [h']; decide
    · rw [h]; decide
    · exact digit_not_ws (hb c h)
  have hnb : ∀ c ∈ a ++ '.' :: b, c ≠ ' ' := by
    intro c hc hq
    have := hws c hc
    rw [hq] at this
    exact absurd this (by decide)
  have hsne : a ++ '.' :: b ≠ [] := by simp
  have hcomma : (a ++ '.' :: b).contains ',' = true :=
    contains_eq_true_of_mem (List.mem_append.mpr (Or.inl hca))
  have hdotc : (a ++ '.' :: b).contains '.' = true :=
    contains_eq_true_of_mem (by simp)
  have hkeep : (a ++ '.' :: b).filter (fun c => !isWsChar c) = a ++ '.' :: b :=
    List.filter_eq_self.mpr (fun c hc => by simp [hws c hc])
  have hbdot : ∀ c ∈ b, c ≠ '.' := fun c hc => (digit_ne_sep (hb c hc)).2.1
  have hbcomma : ∀ c ∈ b, c ≠ ',' := fun c hc => (digit_ne_sep (hb c hc)).1
  have hcond : ¬(lastIndexOfChar (a ++ '.' :: b) ',' >
      lastIndexOfChar (a ++ '.' :: b) '.') := by
    rw [lastIndexOfChar_append_last hbdot, lastIndexOfChar_append_other hbcomma (by decide)]
    exact not_lt.mpr (le_of_lt (lastIndexOfChar_lt_length a ','))
  have ha' : ∀ c ∈ a.filter (fun c => c ≠ ','), c.isDigit = true := by
    intro c hc
    rw [List.mem_filter] at hc
    rcases ha c hc.1 with h | h
    · exact h
    · exact absurd h (by simpa using hc.2)
  have hfc : (a ++ '.' :: b).filter (fun c => c ≠ ',') =
      a.filter (fun c => c ≠ ',') ++ '.' :: b := by
    rw [List.filter_append]
    congr 1
    rw [List.filter_cons, if_pos (by decide), List.filter_eq_self.mpr
      (fun c hc => by simpa using hbcomma c hc)]
  have hfilter :
      (a.filter (fun c => c ≠ ',') ++ '.' :: b).filter
          (fun c => c.isDigit || c = '.' || c = '-') =
        a.filter (fun c => c ≠ ',') ++ '.' :: b := by
    apply List.filter_eq_self.mpr
    intro c hc
    rw [List.mem_append, List.mem_cons] at hc
    rcases hc with h | h | h
    · simp [ha' c h]
    · simp [h]
    · simp [hb c h]
  obtain ⟨hg1, hg2, hg3, hg4⟩ := decimal_join_not_degenerate ha' hne
  have hstep : parseNumeric (.vstr (a ++ '.' :: b)) =
      jsNumber (a.filter (fun c => c ≠ ',') ++ '.' :: b) := by
    simp only [parseNumeric, jsToString]
    rw [map_nbsp_eq_self hnb, trimStr_eq_self hws, if_neg hsne, hkeep, hcomma, hdotc]
    simp only [Bool.and_self]
    rw [if_pos trivial, if_neg hcond, hfc, hfilter, if_neg (by
      simp only [Bool.or_eq_true, decide_eq_true_eq]
      rintro (((h | h) | h) | h)
      exacts [hg1 h, hg2 h, hg3 h, hg4 h])]
  rw [hstep]
  exact jsNumber_decimal ha' hb hne

/-- Mixed separators with the (single) comma occurring last: every dot is
stripped as grouping and the comma is the decimal point. -/
theorem parseNumeric_comma_last (a b : List Char)
    (ha : ∀ c ∈ a, c.isDigit = true ∨ c = '.') (hda : '.' ∈ a)
    (hb : ∀ c ∈ b, c.isDigit = true)
    (hne : a.filter (fun c => c ≠ '.') ≠ [] ∨ b ≠ []) :
    parseNumeric (.vstr (a ++ ',' :: b)) =
      some (decimalVal (a.filter (fun c => c ≠ '.')) b) := by
  have hws : ∀ c ∈ a ++ ',' :: b, isWsChar c = false := by
    intro c hc
    rw [List.mem_append, List.mem_cons] at hc
    rcases hc with h | h | h
    · rcases ha c h with h' | h'
      · exact digit_not_ws h'
      · rw [h']; decide
    · rw [h]; decide
    · exact digit_not_ws (hb c h)
  have hnb : ∀ c ∈ a ++ ',' :: b, c ≠ ' ' := by
    intro c hc hq
    have := hws c hc
    rw [hq] at this
    exact absurd this (by decide)
  have hsne : a ++ ',' :: b ≠ [] := by simp
  have hcomma : (a ++ ',' :: b).contains ',' = true :=
    contains_eq_true_of_mem (by simp)
  have hdotc : (a ++ ',' :: b).contains '.' = true :=
    contains_eq_true_of_mem (List.mem_append.mpr (Or.inl hda))
  have hkeep : (a ++ ',' :: b).filter (fun c => !isWsChar c) = a ++ ',' :: b :=
    List.filter_eq_self.mpr (fun c hc => by simp [hws c hc])
  have hbdot : ∀ c ∈ b, c ≠ '.' := fun c hc => (digit_ne_sep (hb c hc)).2.1
  have hbcomma : ∀ c ∈ b, c ≠ ',' := fun c hc => (digit_ne_sep (hb c hc)).1
  have hcond : lastIndexOfChar (a ++ ',' :: b) ',' >
      lastIndexOfChar (a ++ ',' :: b) '.' := by
    rw [lastIndexOfChar_append_last hbcomma, lastIndexOfChar_append_other hbdot (by decide)]
    exact lastIndexOfChar_lt_length a '.'
  have ha' : ∀ c ∈ a.filter (fun c => c ≠ '.'), c.isDigit = true := by
    intro c hc
    rw [List.mem_filter] at hc
    rcases ha c hc.1 with h | h
    · exact h
    · exact absurd h (by simpa using hc.2)
  have hfc : (a ++ ',' :: b).filter (fun c => c ≠ '.') =
      a.filter (fun c => c ≠ '.') ++ ',' :: b := by
    rw [List.filter_append]
    congr 1
    rw [List.filter_cons, if_pos (by decide), List.filter_eq_self.mpr
      (fun c hc => by simpa using hbdot c hc)]
  have hrepl : replaceFirstChar (a.filter (fun c => c ≠ '.') ++ ',' :: b) ',' '.' =
      a.filter (fun c => c ≠ '.') ++ '.' :: b :=
    replaceFirstChar_append (fun c hc => (digit_ne_sep (ha' c hc)).1)
  have hfilter :
      (a.filter (fun c => c ≠ '.') ++ '.' :: b).filter
          (fun c => c.isDigit || c = '.' || c = '-') =
        a.filter (fun c => c ≠ '.') ++ '.' :: b := by
    apply List.filter_eq_self.mpr
    intro c hc
    rw [List.mem_append, List.mem_cons] at hc
    rcases hc with h | h | h
    · simp [ha' c h]
    · simp [h]
    · simp [hb c h]
  obtain ⟨hg1, hg2, hg3, hg4⟩ := decimal_join_not_degenerate ha' hne
  have hstep : parseNumeric (.vstr (a ++ ',' :: b)) =
      jsNumber (a.filter (fun c => c ≠ '.') ++ '.' :: b) := by
    simp only [parseNumeric, jsToString]
    rw [map_nbsp_eq_self hnb, trimStr_eq_self hws, if_neg hsne, hkeep, hcomma, hdotc]
    simp only [Bool.and_self]
    rw [if_pos trivial, if_pos hcond, hfc, hrepl, hfilter, if_neg (by
      simp only [Bool.or_eq_true, decide_eq_true_eq]
      rintro (((h | h) | h) | h)
      exacts [hg1 h, hg2 h, hg3 h, hg4 h])]
  rw [hstep]
  exact jsNumber_decimal ha' hb hne

/-- C2 counterexample: with interleaved separators the later-separator rule
fails. In `"1,2.3,4"` the later separator is its final comma, so the claimed
reading is `123.4`; the code strips the dots and then replaces only the
*first* comma, yielding `1.234`. And `"1.2,3.4"` (later separator: the final
dot) is rejected outright instead of parsing as `123.4`. -/
theorem c2_counterexample :
    parseNumeric (.vstr (str "1,2.3,4")) = some ⟨1234, 1000⟩ ∧
    JNum.toRat ⟨1234, 1000⟩ ≠ (1234 : ℚ) / 10 ∧
    parseNumeric (.vstr (str "1.2,3.4")) = none := by
  refine ⟨by decide, ?_, by decide⟩
  norm_num [JNum.toRat]

/-- C2 (amended): `parseNumeric` sends both `"1 234,56"` and `"1,234.56"` to
`1234.56`. A lone comma between digit runs is read as the decimal point. With
mixed separators the later-separator rule holds whenever the earlier
separators are all of the other kind: commas before a final dot are stripped
as grouping, and dots before a final comma are stripped with that comma
becoming the decimal point (interleaved separators deviate, see
`c2_counterexample`). `parseNumericZero` returns `0` exactly on inputs where
`parseNumeric` returns `null` (e.g. `"x"`, blank text, `null`) and otherwise
returns `parseNumeric`'s number. -/
theorem c2_amended_separator_rules :
    (parseNumeric (.vstr (str "1 234,56")) = some ⟨123456, 100⟩ ∧
      parseNumeric (.vstr (str "1,234.56")) = some ⟨123456, 100⟩ ∧
      JNum.toRat ⟨123456, 100⟩ = 1234.56) ∧
    (∀ a b : List Char, (∀ c ∈ a, c.isDigit = true) → (∀ c ∈ b, c.isDigit = true) →
      (a ≠ [] ∨ b ≠ []) →
      parseNumeric (.vstr (a ++ ',' :: b)) = some (decimalVal a b)) ∧
    (∀ a b : List Char, (∀ c ∈ a, c.isDigit = true ∨ c = ',') → ',' ∈ a →
      (∀ c ∈ b, c.isDigit = true) → (a.filter (fun c => c ≠ ',') ≠ [] ∨ b ≠ []) →
      parseNumeric (.vstr (a ++ '.' :: b)) =
        some (decimalVal (a.filter (fun c => c ≠ ',')) b)) ∧
    (∀ a b : List Char, (∀ c ∈ a, c.isDigit = true ∨ c = '.') → '.' ∈ a →
      (∀ c ∈ b, c.isDigit = true) → (a.filter (fun c => c ≠ '.') ≠ [] ∨ b ≠ []) →
      parseNumeric (.vstr (a ++ ',' :: b)) =
        some (decimalVal (a.filter (fun c => c ≠ '.')) b)) ∧
    (∀ v : CellValue, (parseNumeric v = none → parseNumericZero v = 0) ∧
      ∀ q, parseNumeric v = some q → parseNumericZero v = q) ∧
    parseNumericZero (.vstr (str "x")) = 0 ∧
    parseNumericZero (.vstr (str "   ")) = 0 ∧
    parseNumericZero .vnull = 0 := by
  refine ⟨⟨by decide, by decide, ?_⟩, parseNumeric_comma_only, parseNumeric_dot_last,
    parseNumeric_comma_last, ?_, by decide, by decide, by decide⟩
  · norm_num [JNum.toRat]
  · intro v
    constructor
    · intro h
      rw [parseNumericZero, h]
      rfl
    · intro q h
      rw [parseNumericZero, h]
      rfl

/-- Closed instantiation of the amended C2 rules at concrete inputs. -/
theorem c2_amended_separator_rules_witness :
    parseNumeric (.vstr (str "12" ++ ',' :: str "5")) =
      some (decimalVal (str "12") (str "5")) ∧
    parseNumeric (.vstr (str "1,234" ++ '.' :: str "56")) =
      some (decimalVal ((str "1,234").filter (fun c => c ≠ ',')) (str "56")) ∧
    parseNumeric (.vstr (str "1.234" ++ ',' :: str "56")) =
      some (decimalVal ((str "1.234").filter (fun c => c ≠ '.')) (str "56")) ∧
    parseNumericZero (.vstr (str "7")) = ⟨7, 1⟩ ∧
    parseNumericZero (.vstr (str "x")) = 0 :=
  ⟨c2_amended_separator_rules.2.1 (str "12") (str "5") (by decide) (by decide)
      (by decide),
   c2_amended_separator_rules.2.2.1 (str "1,234") (str "56") (by decide) (by decide)
      (by decide) (by decide),
   c2_amended_separator_rules.2.2.2.1 (str "1.234") (str "56") (by decide) (by decide)
      (by decide) (by decide),
   (c2_amended_separator_rules.2.2.2.2.1 (.vstr (str "7"))).2 ⟨7, 1⟩ (by decide),
   c2_amended_separator_rules.2.2.2.2.2.1⟩

example : civilFromDays 20469 = ⟨2026, 1, 16⟩ := by decide
example : normalizeDate (.vstr (str "16/01/2026")) = some ⟨2026, 1, 16⟩ := by decide
example : normalizeDate (.vstr (str "16/01/26")) = none := by decide
example : fromFormatDDMMYY (str "16/01/26") = some ⟨2026, 1, 16⟩ := by decide
example : normalizeDate (.vnum ⟨46038, 1⟩) = some ⟨2026, 1, 16⟩ := by decide
example : normalizeDate (.vdate (20469 * 86400000)) = some ⟨2026, 1, 16⟩ := by decide
example : normalizeDate (.vstr (str "2026-01-16")) = some ⟨2026, 1, 16⟩ := by decide
example : normalizeDate (.vstr (str "pas une date")) = none := by decide
example : parseUpdateDate (.vstr (str "16/01 10:30")) 2026 = some ⟨2026, 1, 16, 10, 30⟩ := by
  decide

example : parseNumeric (.vstr (str "1 234,56")) = some ⟨123456, 100⟩ := by decide
example : parseNumeric (.vstr (str "1,234.56")) = some ⟨123456, 100⟩ := by decide
example : parseNumeric (.vstr (str "x")) = none := by decide
example : parseNumericZero (.vstr (str "x")) = 0 := by decide
example : parseNumeric (.vstr (str "1,2.3,4")) = some ⟨1234, 1000⟩ := by decide
example : parseNumeric (.vstr (str "1.2,3.4")) = none := by decide

end ExcelSupabase
